import Mathlib

/-!
# krawl: a depth-bounded, same-host web crawler

A shallow embedding of `krawl.go` and theorems about it.

Modelling conventions.

* A Go `error` is an `Option Error` (`none` is `nil`); a Go `(value, error)` pair coming
  from a library is an `Except`.
* The standard-library functions `url.Parse`, `url.ParseRequestURI` and `regexp.Compile`
  are not part of the repository: they are the fields of `StdLib`, and every theorem
  quantifies over them.
* The page renderer (`chromedp`) is an external collaborator.  It is the structure
  `Renderer`: each answer is a function of the whole history of earlier renderer calls
  (`State.trace`), so that stateful and failing renderers are covered.  The history is
  also what lets theorems speak about "no renderer call was made".
* The package-level variable `visitedURLs` (a `map[string]bool` that only ever receives
  `true`) is the list of its keys, newest first.  The slice behind the pointer
  `CrawlPageInput.RunnerOutput` is the field `State.allData`.
* The package-level variables `baseDomain` and `matchPattern` are never read, `mux` only
  guards `visitedURLs` in sequential code, and the `fmt.Println` calls only print: none of
  them is modelled.
-/

namespace Krawl

/-! ## Data model -/

/-- Go `error` values are represented by their message. -/
abbrev Error := String

/-- Go struct `RunnerOutput`: what is stored for one rendered page. -/
structure RunnerOutput where
  URL : String
  Content : String
  Title : String
  deriving DecidableEq, Repr

/-- Go struct `RunnerInput`. -/
structure RunnerInput where
  StartUrl : String
  PathPatterns : List String
  Depth : Int
  deriving DecidableEq, Repr

/-- Go struct `CrawlPageInput`; its pointer field `RunnerOutput` is `State.allData`. -/
structure CrawlPageInput where
  PageURL : String
  Depth : Int
  PathPatterns : List String
  deriving DecidableEq, Repr

/-- The two observations the program makes of a parsed `*url.URL`: the field `Host` and
the method `Hostname()`. -/
structure URL where
  Host : String
  Hostname : String
  deriving DecidableEq, Repr

/-- The standard-library functions the program calls. -/
structure StdLib where
  /-- Go `url.Parse`. -/
  url_Parse : String → Except Error URL
  /-- Go `url.ParseRequestURI`. -/
  url_ParseRequestURI : String → Except Error URL
  /-- Go `regexp.Compile`; a compiled expression is represented by its `MatchString`. -/
  regexp_Compile : String → Except Error (String → Bool)

/-- One call to the renderer together with its answer. -/
inductive Event where
  /-- The `chromedp.Run(Navigate, WaitVisible, Title, Text)` of `ParsePage`; the answer is
  the title and the body text. -/
  | navigate (url : String) (result : Except Error (String × String))
  /-- The `chromedp.Run(Evaluate ...)` of `CrawlPage` that reads the links of the page
  currently loaded. -/
  | evaluate (result : Except Error (List String))

/-- The page renderer: each answer may depend on every earlier call. -/
structure Renderer where
  /-- Answer to navigating to a URL and reading title and body text. -/
  page : List Event → String → Except Error (String × String)
  /-- Answer to reading the `href` of every anchor of the current page. -/
  links : List Event → Except Error (List String)

/-- What outlives one call of `Runner`: the package-level `visitedURLs` and the history
of renderer calls. -/
structure Process where
  visitedURLs : List String
  trace : List Event

/-- Everything `CrawlPage` reads and writes. -/
structure State where
  visitedURLs : List String
  allData : List RunnerOutput
  trace : List Event

/-! ## Operations -/

/-- Go `strings.Contains`. -/
def strings_Contains (s substr : String) : Bool :=
  s.data.tails.any (fun t => substr.data.isPrefixOf t)

/-- Go `validateURL`. -/
def validateURL (L : StdLib) (u : String) : Option Error :=
  match L.url_ParseRequestURI u with
  | .error _ => some "invalid URL"
  | .ok url => if url.Host = "" then some "invalid URL" else none

/-- Go `extractDomain`. -/
def extractDomain (L : StdLib) (urlStr : String) : Except Error String :=
  match L.url_Parse urlStr with
  | .error err => .error err
  | .ok parsedURL => .ok parsedURL.Hostname

/-- The `for _, pattern := range input.PathPatterns` loop of `validatePathPatterns`. -/
def validatePathPatterns.loop (L : StdLib) (startURLDomain : String) :
    List String → Option Error
  | [] => none
  | pattern :: rest =>
    match extractDomain L pattern with
    | .error _ => validatePathPatterns.loop L startURLDomain rest
    | .ok patternDomain =>
      if patternDomain = "" then validatePathPatterns.loop L startURLDomain rest
      else if patternDomain ≠ startURLDomain then
        some ("domain in pattern " ++ pattern ++ " does not match start URL domain")
      else validatePathPatterns.loop L startURLDomain rest

/-- Go `validatePathPatterns`. -/
def validatePathPatterns (L : StdLib) (input : RunnerInput) : Option Error :=
  if input.PathPatterns.length = 0 then none
  else
    match extractDomain L input.StartUrl with
    | .error err => some ("error extracting domain from start URL: " ++ err)
    | .ok startURLDomain => validatePathPatterns.loop L startURLDomain input.PathPatterns

/-- Go `validateInputs`. -/
def validateInputs (L : StdLib) (input : RunnerInput) : Option Error :=
  match validateURL L input.StartUrl with
  | some err => some err
  | none =>
    match validatePathPatterns L input with
    | some err => some err
    | none => none

/-- The `for _, pattern := range Input.PathPatterns` loop of `IsInternalLink`, started
with the current value of `patternMatched`; `none` is the early `return false`. -/
def IsInternalLink.loop (L : StdLib) (link : String) : List String → Bool → Option Bool
  | [], patternMatched => some patternMatched
  | pattern :: rest, patternMatched =>
    match L.regexp_Compile pattern with
    | .error _ => none
    | .ok matchPattern =>
      IsInternalLink.loop L link rest (if matchPattern link then true else patternMatched)

/-- Go `IsInternalLink`. -/
def IsInternalLink (L : StdLib) (link : String) (Input : RunnerInput) : Bool :=
  match L.url_Parse link with
  | .error _ => false
  | .ok parsedURL =>
    match L.url_Parse Input.StartUrl with
    | .error _ => false
    | .ok parsedBaseURL =>
      match IsInternalLink.loop L link Input.PathPatterns false with
      | none => false
      | some patternMatched =>
        decide (parsedURL.Hostname = parsedBaseURL.Hostname) && patternMatched

/-- Go `ParsePage`: one renderer call, recorded in the history. -/
def ParsePage (R : Renderer) (url : String) (s : State) :
    Except Error RunnerOutput × State :=
  let r := R.page s.trace url
  let s1 : State := { s with trace := s.trace ++ [Event.navigate url r] }
  match r with
  | .error err => (.error err, s1)
  | .ok (title, data) => (.ok { Title := title, URL := url, Content := data }, s1)

/-- Go `CrawlPage`.  The recursive call is made with `PageURL`, `Depth` and `RunnerOutput`
only, so its `PathPatterns` is the zero value (the nil slice). -/
def CrawlPage (L : StdLib) (R : Renderer) (Input : CrawlPageInput) (s : State) :
    Option Error × State :=
  if Input.Depth ≤ 0 then (none, s)
  else if Input.PageURL ∈ s.visitedURLs then (none, s)
  else
    let s1 : State := { s with visitedURLs := Input.PageURL :: s.visitedURLs }
    match ParsePage R Input.PageURL s1 with
    | (.error err, s2) => (some err, s2)
    | (.ok pageData, s2) =>
      let s3 : State := { s2 with allData := s2.allData ++ [pageData] }
      let r := R.links s3.trace
      let s4 : State := { s3 with trace := s3.trace ++ [Event.evaluate r] }
      match r with
      | .error err => (some err, s4)
      | .ok links =>
        (none, links.foldl (fun st link =>
          if IsInternalLink L link
                { StartUrl := Input.PageURL, PathPatterns := Input.PathPatterns, Depth := 0 }
              && !strings_Contains link "#" then
            (CrawlPage L R
              { PageURL := link, Depth := Input.Depth - 1, PathPatterns := [] } st).2
          else st) s4)
termination_by Input.Depth.toNat
decreasing_by
  simp_wf
  omega

/-- Go `Runner`: the records and the error it returns, and the process state it leaves.
The error of a failed crawl is `fmt.Errorf("Crawl Error", err)`; its text is shortened to
`Crawl Error`: the suffix that Go appends for the unused argument (the type and the text
of the inner error) is left out. -/
def Runner (L : StdLib) (R : Renderer) (input : RunnerInput) (p : Process) :
    (List RunnerOutput × Option Error) × Process :=
  let depth := if input.Depth < 1 then 3 else input.Depth
  let allData : List RunnerOutput := []
  match validateInputs L input with
  | some err => (([], some err), p)
  | none =>
    match CrawlPage L R
        { PageURL := input.StartUrl, Depth := depth, PathPatterns := input.PathPatterns }
        { visitedURLs := p.visitedURLs, allData := allData, trace := p.trace } with
    | (some _, s) =>
      (([], some "Crawl Error"), { visitedURLs := s.visitedURLs, trace := s.trace })
    | (none, s) =>
      ((s.allData, none), { visitedURLs := s.visitedURLs, trace := s.trace })

/-- The body of the `for _, link := range links` loop of `CrawlPage`. -/
def followLink (L : StdLib) (R : Renderer) (Input : CrawlPageInput) (st : State)
    (link : String) : State :=
  if IsInternalLink L link
        { StartUrl := Input.PageURL, PathPatterns := Input.PathPatterns, Depth := 0 }
      && !strings_Contains link "#" then
    (CrawlPage L R { PageURL := link, Depth := Input.Depth - 1, PathPatterns := [] } st).2
  else st

/-- The state in which `CrawlPage` reads the links of a page it has just rendered. -/
def rendered (s : State) (url : String) (title data : String) (r : Except Error (List String)) : State :=
  { visitedURLs := url :: s.visitedURLs,
    allData := s.allData ++ [{ Title := title, URL := url, Content := data }],
    trace := s.trace ++ [Event.navigate url (.ok (title, data)), Event.evaluate r] }


/-- The URL a renderer call navigated to, if it was a navigation. -/
def Event.navigated : Event → Option String
  | .navigate url _ => some url
  | .evaluate _ => none

/-- The relation `Crawled L tr page pats d u`: in the renderer history `tr`, the URL `u`
is `page` itself, or it is reached from `page` through links that the loop of `CrawlPage`
follows when it is called on `page` with patterns `pats` and depth `d`: each link was
returned by the renderer for the page before it, passed `IsInternalLink` against that
page, has no `#`, and is crawled with the depth reduced by one and no patterns. -/
inductive Crawled (L : StdLib) (tr : List Event) :
    String → List String → Int → String → Prop
  | self (page : String) (pats : List String) (d : Int) :
      0 < d → Crawled L tr page pats d page
  | child (page : String) (pats : List String) (d : Int)
      (r : Except Error (String × String)) (ls : List String) (l u : String) :
      0 < d → [Event.navigate page r, Event.evaluate (.ok ls)] <:+: tr → l ∈ ls →
      IsInternalLink L l { StartUrl := page, PathPatterns := pats, Depth := 0 } = true →
      strings_Contains l "#" = false →
      Crawled L tr l [] (d - 1) u → Crawled L tr page pats d u

/-- What one call of `CrawlPage` does to the state: it puts new URLs `v` in front of the
visited set, appends records `d` and renderer calls `t`; the new URLs are distinct and
were not visited before, the records are records of new URLs in the order of their
visits, the navigations are exactly the new URLs in that order, and every new URL is
`Crawled` from the page of the call. -/
def Effect (L : StdLib) (Input : CrawlPageInput) (s s' : State) : Prop :=
  ∃ (v : List String) (d : List RunnerOutput) (t : List Event),
    s'.visitedURLs = v ++ s.visitedURLs ∧ s'.allData = s.allData ++ d ∧
    s'.trace = s.trace ++ t ∧ v.Nodup ∧ (∀ u ∈ v, u ∉ s.visitedURLs) ∧
    List.Sublist (d.map (fun r => r.URL)) v.reverse ∧
    t.filterMap Event.navigated = v.reverse ∧
    ∀ u ∈ v, Crawled L t Input.PageURL Input.PathPatterns Input.Depth u

/-- The records a call appended: the output after it, without the output before it. -/
def newRecords (s s' : State) : List RunnerOutput := s'.allData.drop s.allData.length

/-- The renderer calls a call made: the history after it, without the history before. -/
def newEvents (s s' : State) : List Event := s'.trace.drop s.trace.length

/-- A rendered outbound link: in the history `tr` the renderer was navigated to `u` and
the read of its links that followed returned a list containing `l`. -/
def Edge (tr : List Event) (u l : String) : Prop :=
  ∃ r ls, [Event.navigate u r, Event.evaluate (.ok ls)] <:+: tr ∧ l ∈ ls

/-- A chain of `n` rendered outbound links from `u` to `w`. -/
inductive LinkPath (tr : List Event) : String → Nat → String → Prop
  | nil (u : String) : LinkPath tr u 0 u
  | cons (u l w : String) (n : Nat) : Edge tr u l → LinkPath tr l n w →
      LinkPath tr u (n + 1) w

/-! ## A concrete site

A fragment of the standard library and a small site, for evaluating the program. -/

/-- The host of a URL of the form `https://host...`, and the empty host of every other
string. -/
def hostOf (s : String) : String :=
  if "https://".data.isPrefixOf s.data then
    String.mk ((s.data.drop 8).takeWhile (fun c => c ≠ '/' ∧ c ≠ '?' ∧ c ≠ '#'))
  else ""

/-- A fragment of the Go library that agrees with it on the strings used below:
`https` URLs with a plain host and no port, relative paths, and three regular
expressions. -/
def exLib : StdLib where
  url_Parse := fun s => .ok { Host := hostOf s, Hostname := hostOf s }
  url_ParseRequestURI := fun s =>
    if "https://".data.isPrefixOf s.data ∨ "/".data.isPrefixOf s.data then
      .ok { Host := hostOf s, Hostname := hostOf s }
    else .error "invalid URI for request"
  regexp_Compile := fun p =>
    if p = "/blog/.*" then .ok (fun s => strings_Contains s "/blog/")
    else if p = ".*" then .ok (fun _ => true)
    else .error "error parsing regexp"

/-- A renderer for a static site: the answer to a navigation depends on the URL only, and
the links read are those of the page navigated to last. -/
def siteRenderer (pages : String → Except Error (String × String))
    (links : String → Except Error (List String)) : Renderer where
  page := fun _ url => pages url
  links := fun tr =>
    match tr.getLast? with
    | some (Event.navigate url _) => links url
    | _ => .error "no page loaded"

/-- The example site: the seed links to two blog posts, a page outside the blog, a page
on another host, a fragment of a post and a post that fails to render; the first post
links to a further post and back to the seed. -/
def exSite : Renderer :=
  siteRenderer
    (fun url => if url = "https://site.com/blog/bad" then .error "net::ERR_FAILED"
      else .ok ("title", "text"))
    (fun url =>
      if url = "https://site.com" then
        .ok ["https://site.com/blog/a", "https://site.com/about", "https://other.com/x",
          "https://site.com/blog/a#top", "https://site.com/blog/bad",
          "https://site.com/blog/c"]
      else if url = "https://site.com/blog/a" then
        .ok ["https://site.com/blog/b", "https://site.com"]
      else .ok [])

/-- The state before the first crawl of a process. -/
def emptyState : State := { visitedURLs := [], allData := [], trace := [] }

/-- The seed of the example crawl. -/
def exSeed : CrawlPageInput :=
  { PageURL := "https://site.com", Depth := 3, PathPatterns := ["/blog/.*"] }

/-- The links of the seed page of the example site. -/
def exSeedLinks : List String :=
  ["https://site.com/blog/a", "https://site.com/about", "https://other.com/x",
    "https://site.com/blog/a#top", "https://site.com/blog/bad", "https://site.com/blog/c"]

/-- The state the example crawl leaves. -/
def exFinal : State :=
  { visitedURLs := ["https://site.com/blog/c", "https://site.com/blog/bad",
      "https://site.com/blog/a", "https://site.com"],
    allData := [{ URL := "https://site.com", Content := "text", Title := "title" },
      { URL := "https://site.com/blog/a", Content := "text", Title := "title" },
      { URL := "https://site.com/blog/c", Content := "text", Title := "title" }],
    trace := [Event.navigate "https://site.com" (.ok ("title", "text")),
      Event.evaluate (.ok exSeedLinks),
      Event.navigate "https://site.com/blog/a" (.ok ("title", "text")),
      Event.evaluate (.ok ["https://site.com/blog/b", "https://site.com"]),
      Event.navigate "https://site.com/blog/bad" (.error "net::ERR_FAILED"),
      Event.navigate "https://site.com/blog/c" (.ok ("title", "text")),
      Event.evaluate (.ok [])] }

/-- A renderer for a site on which every page renders and every read of the links fails
(as it does once the deadline of the crawl has passed). -/
def exNoLinks : Renderer :=
  siteRenderer (fun _ => .ok ("title", "text")) (fun _ => .error "context deadline exceeded")

/-- The request of the example crawl. -/
def exRequest : RunnerInput :=
  { StartUrl := "https://site.com", PathPatterns := ["/blog/.*"], Depth := 3 }

/-- A fresh process: nothing visited, no renderer call made. -/
def freshProcess : Process := { visitedURLs := [], trace := [] }

/-- The function `CrawlPage` run with a bound on the nesting of its calls: the same steps
as `CrawlPage`, except that a call nested deeper than `fuel` gives up, which makes the
whole run give up (`none`). -/
def CrawlPageFuel (L : StdLib) (R : Renderer) :
    Nat → CrawlPageInput → State → Option (Option Error × State)
  | 0, _, _ => none
  | fuel + 1, Input, s =>
    if Input.Depth ≤ 0 then some (none, s)
    else if Input.PageURL ∈ s.visitedURLs then some (none, s)
    else
      let s1 : State := { s with visitedURLs := Input.PageURL :: s.visitedURLs }
      match ParsePage R Input.PageURL s1 with
      | (.error err, s2) => some (some err, s2)
      | (.ok pageData, s2) =>
        let s3 : State := { s2 with allData := s2.allData ++ [pageData] }
        let r := R.links s3.trace
        let s4 : State := { s3 with trace := s3.trace ++ [Event.evaluate r] }
        match r with
        | .error err => some (some err, s4)
        | .ok links =>
          (links.foldl (fun acc link =>
            match acc with
            | none => none
            | some st =>
              if IsInternalLink L link
                    { StartUrl := Input.PageURL, PathPatterns := Input.PathPatterns,
                      Depth := 0 }
                  && !strings_Contains link "#" then
                (CrawlPageFuel L R fuel
                  { PageURL := link, Depth := Input.Depth - 1, PathPatterns := [] } st).map
                  Prod.snd
              else some st) (some s4)).map (fun st => (none, st))

/-- The records that the loop of `CrawlPage` appends for a list of links, in the order of
the links: the records appended at the first link, then those appended at the links after
it from the state the first link leaves. -/
def linkRecords (L : StdLib) (R : Renderer) (Input : CrawlPageInput) :
    State → List String → List RunnerOutput
  | _, [] => []
  | st, link :: rest =>
    newRecords st (followLink L R Input st link) ++
      linkRecords L R Input (followLink L R Input st link) rest

/-! ## Theorems -/

theorem CrawlPage_depth_le (L : StdLib) (R : Renderer) (Input : CrawlPageInput) (s : State)
    (h : Input.Depth ≤ 0) : CrawlPage L R Input s = (none, s) := by
  rw [CrawlPage]; simp [h]

theorem CrawlPage_visited (L : StdLib) (R : Renderer) (Input : CrawlPageInput) (s : State)
    (h : Input.PageURL ∈ s.visitedURLs) : CrawlPage L R Input s = (none, s) := by
  rw [CrawlPage]; simp [h]

theorem CrawlPage_page_error (L : StdLib) (R : Renderer) (Input : CrawlPageInput) (s : State)
    (err : Error) (hd : 0 < Input.Depth) (hv : Input.PageURL ∉ s.visitedURLs)
    (hp : R.page s.trace Input.PageURL = .error err) :
    CrawlPage L R Input s = (some err,
      { visitedURLs := Input.PageURL :: s.visitedURLs, allData := s.allData,
        trace := s.trace ++ [Event.navigate Input.PageURL (.error err)] }) := by
  rw [CrawlPage]; simp [hv, not_le.mpr hd, ParsePage, hp]

theorem CrawlPage_links_error (L : StdLib) (R : Renderer) (Input : CrawlPageInput) (s : State)
    (title data : String) (err : Error) (hd : 0 < Input.Depth)
    (hv : Input.PageURL ∉ s.visitedURLs)
    (hp : R.page s.trace Input.PageURL = .ok (title, data))
    (hl : R.links (s.trace ++ [Event.navigate Input.PageURL (.ok (title, data))]) = .error err) :
    CrawlPage L R Input s = (some err, rendered s Input.PageURL title data (.error err)) := by
  rw [CrawlPage]; simp [hv, not_le.mpr hd, ParsePage, hp, hl, rendered]

theorem CrawlPage_links_ok (L : StdLib) (R : Renderer) (Input : CrawlPageInput) (s : State)
    (title data : String) (links : List String) (hd : 0 < Input.Depth)
    (hv : Input.PageURL ∉ s.visitedURLs)
    (hp : R.page s.trace Input.PageURL = .ok (title, data))
    (hl : R.links (s.trace ++ [Event.navigate Input.PageURL (.ok (title, data))]) = .ok links) :
    CrawlPage L R Input s =
      (none, links.foldl (followLink L R Input)
        (rendered s Input.PageURL title data (.ok links))) := by
  rw [CrawlPage]; simp [hv, not_le.mpr hd, ParsePage, hp, hl, rendered]
  congr 1; funext st link; simp [followLink]

/-- Invariant rule for a left fold: what holds at the start and is kept by every step on
an element of the list holds at the end. -/
theorem foldl_invariant {α β : Type} (P : β → Prop) (f : β → α → β) :
    ∀ (l : List α) (b : β), P b → (∀ b a, a ∈ l → P b → P (f b a)) → P (l.foldl f b)
  | [], b, hb, _ => hb
  | a :: l, b, hb, hstep => by
    rw [List.foldl_cons]
    exact foldl_invariant P f l (f b a) (hstep b a (List.mem_cons_self a l) hb)
      (fun b x hx hP => hstep b x (List.mem_cons_of_mem a hx) hP)

/-- Induction over the calls of `CrawlPage`: one case per exit of the function; in the
last case the property may be assumed of every recursive call. -/
theorem CrawlPage_induct (L : StdLib) (R : Renderer)
    (P : CrawlPageInput → State → Option Error × State → Prop)
    (h_depth : ∀ Input s, Input.Depth ≤ 0 → P Input s (none, s))
    (h_visited : ∀ Input s, 0 < Input.Depth → Input.PageURL ∈ s.visitedURLs →
      P Input s (none, s))
    (h_page : ∀ Input s err, 0 < Input.Depth → Input.PageURL ∉ s.visitedURLs →
      R.page s.trace Input.PageURL = .error err →
      P Input s (some err,
        { visitedURLs := Input.PageURL :: s.visitedURLs, allData := s.allData,
          trace := s.trace ++ [Event.navigate Input.PageURL (.error err)] }))
    (h_links : ∀ Input s title data err, 0 < Input.Depth →
      Input.PageURL ∉ s.visitedURLs →
      R.page s.trace Input.PageURL = .ok (title, data) →
      R.links (s.trace ++ [Event.navigate Input.PageURL (.ok (title, data))]) = .error err →
      P Input s (some err, rendered s Input.PageURL title data (.error err)))
    (h_loop : ∀ Input s title data links, 0 < Input.Depth →
      Input.PageURL ∉ s.visitedURLs →
      R.page s.trace Input.PageURL = .ok (title, data) →
      R.links (s.trace ++ [Event.navigate Input.PageURL (.ok (title, data))]) = .ok links →
      (∀ link st, P { PageURL := link, Depth := Input.Depth - 1, PathPatterns := [] } st
        (CrawlPage L R { PageURL := link, Depth := Input.Depth - 1, PathPatterns := [] } st)) →
      P Input s (none, links.foldl (followLink L R Input)
        (rendered s Input.PageURL title data (.ok links)))) :
    ∀ Input s, P Input s (CrawlPage L R Input s) := by
  have key : ∀ (n : Nat) (Input : CrawlPageInput) (s : State), Input.Depth.toNat = n →
      P Input s (CrawlPage L R Input s) := by
    intro n
    induction n with
    | zero =>
      intro Input s hn
      have hd : Input.Depth ≤ 0 := by omega
      rw [CrawlPage_depth_le L R Input s hd]
      exact h_depth Input s hd
    | succ n ih =>
      intro Input s hn
      have hd : 0 < Input.Depth := by omega
      by_cases hv : Input.PageURL ∈ s.visitedURLs
      · rw [CrawlPage_visited L R Input s hv]
        exact h_visited Input s hd hv
      · cases hp : R.page s.trace Input.PageURL with
        | error err =>
          rw [CrawlPage_page_error L R Input s err hd hv hp]
          exact h_page Input s err hd hv hp
        | ok td =>
          obtain ⟨title, data⟩ := td
          cases hl : R.links (s.trace ++ [Event.navigate Input.PageURL (.ok (title, data))]) with
          | error err =>
            rw [CrawlPage_links_error L R Input s title data err hd hv hp hl]
            exact h_links Input s title data err hd hv hp hl
          | ok links =>
            rw [CrawlPage_links_ok L R Input s title data links hd hv hp hl]
            exact h_loop Input s title data links hd hv hp hl
              (fun link st => ih _ st (by simp only []; omega))
  exact fun Input s => key _ Input s rfl

theorem Crawled.mono {L : StdLib} {tr tr2 : List Event} (h : tr <:+: tr2)
    {page : String} {pats : List String} {d : Int} {u : String}
    (hc : Crawled L tr page pats d u) : Crawled L tr2 page pats d u := by
  induction hc with
  | self page pats d hd => exact Crawled.self page pats d hd
  | child page pats d r ls l u hd hin hl hi hf _ ih =>
    exact Crawled.child page pats d r ls l u hd (hin.trans h) hl hi hf ih

theorem Effect.refl (L : StdLib) (Input : CrawlPageInput) (s : State) :
    Effect L Input s s :=
  ⟨[], [], [], by simp⟩

/-- The summary of every call of `CrawlPage`. -/
theorem CrawlPage_effect (L : StdLib) (R : Renderer) :
    ∀ Input s, Effect L Input s (CrawlPage L R Input s).2 := by
  refine CrawlPage_induct L R (fun Input s res => Effect L Input s res.2) ?_ ?_ ?_ ?_ ?_
  · intro Input s _; exact Effect.refl L Input s
  · intro Input s _ _; exact Effect.refl L Input s
  · intro Input s err hd hv _
    refine ⟨[Input.PageURL], [], [Event.navigate Input.PageURL (.error err)], ?_⟩
    simp [Event.navigated, hv]
    exact Crawled.self _ _ _ hd
  · intro Input s title data err hd hv _ _
    refine ⟨[Input.PageURL], [{ Title := title, URL := Input.PageURL, Content := data }],
      [Event.navigate Input.PageURL (.ok (title, data)), Event.evaluate (.error err)], ?_⟩
    simp [Event.navigated, hv, rendered]
    exact Crawled.self _ _ _ hd
  · intro Input s title data links hd hv _ _ ih
    -- the loop invariant
    have inv := foldl_invariant
      (fun st : State => ∃ (v : List String) (d : List RunnerOutput) (t : List Event),
        st.visitedURLs = v ++ Input.PageURL :: s.visitedURLs ∧
        st.allData = s.allData ++
          ({ Title := title, URL := Input.PageURL, Content := data } : RunnerOutput) :: d ∧
        st.trace = s.trace ++ (Event.navigate Input.PageURL (.ok (title, data)) ::
          Event.evaluate (.ok links) :: t) ∧
        v.Nodup ∧ (∀ u ∈ v, u ≠ Input.PageURL ∧ u ∉ s.visitedURLs) ∧
        List.Sublist (d.map (fun r => r.URL)) v.reverse ∧
        t.filterMap Event.navigated = v.reverse ∧
        ∀ u ∈ v, Crawled L (Event.navigate Input.PageURL (.ok (title, data)) ::
          Event.evaluate (.ok links) :: t) Input.PageURL Input.PathPatterns Input.Depth u)
      (followLink L R Input) links (rendered s Input.PageURL title data (.ok links))
      ⟨[], [], [], by simp [rendered]⟩
      (by
        intro st link hlink ⟨v, d, t, hv1, hd1, ht1, hnd, hfresh, hsub, hnav, hcr⟩
        unfold followLink
        split
        next hfollow =>
          simp only [Bool.and_eq_true, Bool.not_eq_true'] at hfollow
          obtain ⟨vc, dc, tc, hv2, hd2, ht2, hndc, hfreshc, hsubc, hnavc, hcrc⟩ := ih link st
          refine ⟨vc ++ v, d ++ dc, t ++ tc, ?_, ?_, ?_, ?_, ?_, ?_, ?_, ?_⟩
          · rw [hv2, hv1]; simp
          · rw [hd2, hd1]; simp
          · rw [ht2, ht1]; simp
          · refine List.Nodup.append hndc hnd ?_
            intro u hu1 hu2
            exact hfreshc u hu1 (by rw [hv1]; exact List.mem_append_left _ hu2)
          · intro u hu
            rcases List.mem_append.mp hu with hu | hu
            · have := hfreshc u hu
              rw [hv1] at this
              simp only [List.mem_append, List.mem_cons, not_or] at this
              exact ⟨this.2.1, this.2.2⟩
            · exact hfresh u hu
          · rw [List.map_append, List.reverse_append]
            exact List.Sublist.append hsub hsubc
          · rw [List.filterMap_append, List.reverse_append, hnav, hnavc]
          · intro u hu
            rcases List.mem_append.mp hu with hu | hu
            · refine Crawled.child _ _ _ (.ok (title, data)) links link u hd ?_ hlink
                hfollow.1 hfollow.2 ?_
              · exact ⟨[], t ++ tc, by simp⟩
              · refine Crawled.mono ?_ (hcrc u hu)
                exact ⟨Event.navigate Input.PageURL (.ok (title, data)) ::
                  Event.evaluate (.ok links) :: t, [], by simp⟩
            · refine Crawled.mono ?_ (hcr u hu)
              exact List.IsPrefix.isInfix ⟨tc, by simp⟩
        next => exact ⟨v, d, t, hv1, hd1, ht1, hnd, hfresh, hsub, hnav, hcr⟩)
    obtain ⟨v, d, t, hv1, hd1, ht1, hnd, hfresh, hsub, hnav, hcr⟩ := inv
    refine ⟨v ++ [Input.PageURL],
      ({ Title := title, URL := Input.PageURL, Content := data } : RunnerOutput) :: d,
      Event.navigate Input.PageURL (.ok (title, data)) :: Event.evaluate (.ok links) :: t,
      ?_, hd1, ht1, ?_, ?_, ?_, ?_, ?_⟩
    · simp [hv1]
    · rw [List.nodup_append]
      refine ⟨hnd, List.nodup_singleton _, ?_⟩
      intro u hu hu2
      rw [List.mem_singleton] at hu2
      exact (hfresh u hu).1 hu2
    · intro u hu
      rcases List.mem_append.mp hu with hu | hu
      · exact (hfresh u hu).2
      · rw [List.mem_singleton] at hu; rw [hu]; exact hv
    · simp only [List.map_cons, List.reverse_append, List.reverse_singleton,
        List.singleton_append]
      exact List.Sublist.cons₂ _ hsub
    · simp [Event.navigated, hnav]
    · intro u hu
      rcases List.mem_append.mp hu with hu | hu
      · exact hcr u hu
      · rw [List.mem_singleton] at hu; rw [hu]; exact Crawled.self _ _ _ hd

/-- Every new record, every new navigation and every newly visited URL of a call of
`CrawlPage` is `Crawled` from the page of the call; the URLs of the new records are
distinct; the visited set only grows. -/
theorem CrawlPage_new (L : StdLib) (R : Renderer) (Input : CrawlPageInput) (s : State) :
    ((newRecords s (CrawlPage L R Input s).2).map (fun r => r.URL)).Nodup ∧
    (∀ r ∈ newRecords s (CrawlPage L R Input s).2, r.URL ∉ s.visitedURLs ∧
      Crawled L (newEvents s (CrawlPage L R Input s).2) Input.PageURL Input.PathPatterns
        Input.Depth r.URL) ∧
    (∀ u res, Event.navigate u res ∈ newEvents s (CrawlPage L R Input s).2 →
      u ∉ s.visitedURLs ∧
      Crawled L (newEvents s (CrawlPage L R Input s).2) Input.PageURL Input.PathPatterns
        Input.Depth u) ∧
    (∀ u ∈ (CrawlPage L R Input s).2.visitedURLs, u ∈ s.visitedURLs ∨
      Crawled L (newEvents s (CrawlPage L R Input s).2) Input.PageURL Input.PathPatterns
        Input.Depth u) ∧
    (∀ u ∈ s.visitedURLs, u ∈ (CrawlPage L R Input s).2.visitedURLs) := by
  obtain ⟨v, d, t, hv, hd, ht, hnd, hfresh, hsub, hnav, hcr⟩ := CrawlPage_effect L R Input s
  have hrec : newRecords s (CrawlPage L R Input s).2 = d := by simp [newRecords, hd]
  have hev : newEvents s (CrawlPage L R Input s).2 = t := by simp [newEvents, ht]
  rw [hrec, hev]
  have hmem : ∀ r ∈ d, r.URL ∈ v := fun r hr =>
    List.mem_reverse.mp (hsub.subset (List.mem_map_of_mem (fun r => r.URL) hr))
  have hnavmem : ∀ u res, Event.navigate u res ∈ t → u ∈ v := by
    intro u res hin
    have : u ∈ t.filterMap Event.navigated :=
      List.mem_filterMap.mpr ⟨_, hin, rfl⟩
    rw [hnav] at this
    exact List.mem_reverse.mp this
  refine ⟨hsub.nodup (List.nodup_reverse.mpr hnd),
    fun r hr => ⟨hfresh _ (hmem r hr), hcr _ (hmem r hr)⟩,
    fun u res hin => ⟨hfresh _ (hnavmem u res hin), hcr _ (hnavmem u res hin)⟩, ?_, ?_⟩
  · intro u hu
    rw [hv] at hu
    rcases List.mem_append.mp hu with hu | hu
    · exact Or.inr (hcr u hu)
    · exact Or.inl hu
  · intro u hu
    rw [hv]
    exact List.mem_append_right _ hu

theorem newRecords_of_nil (visited : List String) (trace : List Event) (s' : State) :
    newRecords { visitedURLs := visited, allData := [], trace := trace } s' = s'.allData := by
  simp [newRecords]

theorem Crawled.linkPath {L : StdLib} {tr : List Event} {page : String}
    {pats : List String} {d : Int} {u : String} (hc : Crawled L tr page pats d u) :
    ∃ n : Nat, (n : Int) < d ∧ LinkPath tr page n u := by
  induction hc with
  | self page pats d hd => exact ⟨0, by simpa using hd, LinkPath.nil page⟩
  | child page pats d r ls l u hd hin hl hi hf _ ih =>
    obtain ⟨n, hn, hp⟩ := ih
    exact ⟨n + 1, by push_cast; omega, LinkPath.cons page l u n ⟨r, ls, hin, hl⟩ hp⟩

theorem IsInternalLink_host {L : StdLib} {link : String} {Input : RunnerInput}
    (h : IsInternalLink L link Input = true) :
    ∃ a b, L.url_Parse link = .ok a ∧ L.url_Parse Input.StartUrl = .ok b ∧
      a.Hostname = b.Hostname := by
  unfold IsInternalLink at h
  split at h
  · exact absurd h (by simp)
  · rename_i a ha
    split at h
    · exact absurd h (by simp)
    · rename_i b hb
      split at h
      · exact absurd h (by simp)
      · simp only [Bool.and_eq_true, decide_eq_true_eq] at h
        exact ⟨a, b, ha, hb, h.1⟩

theorem Crawled.host {L : StdLib} {tr : List Event} {page : String}
    {pats : List String} {d : Int} {u : String} (hc : Crawled L tr page pats d u) :
    ∀ b, L.url_Parse page = .ok b → ∃ a, L.url_Parse u = .ok a ∧ a.Hostname = b.Hostname := by
  induction hc with
  | self page pats d hd => exact fun b hb => ⟨b, hb, rfl⟩
  | child page pats d r ls l u hd hin hl hi hf _ ih =>
    intro b hb
    obtain ⟨a1, b1, ha1, hb1, h1⟩ := IsInternalLink_host hi
    simp only [hb, Except.ok.injEq] at hb1
    obtain ⟨a, ha, h2⟩ := ih a1 ha1
    exact ⟨a, ha, by rw [h2, h1, hb1]⟩

theorem Crawled.fragment {L : StdLib} {tr : List Event} {page : String}
    {pats : List String} {d : Int} {u : String} (hc : Crawled L tr page pats d u) :
    u = page ∨ strings_Contains u "#" = false := by
  induction hc with
  | self page pats d hd => exact Or.inl rfl
  | child page pats d r ls l u hd hin hl hi hf _ ih =>
    rcases ih with h | h
    · exact Or.inr (h ▸ hf)
    · exact Or.inr h

/-- C1 (no duplicate visits): for every renderer, every visited set, every depth and
every pattern list, when `CrawlPage` is started with an empty output collection the URLs
of the records in the output collection it leaves are pairwise distinct. -/
theorem no_duplicate_records (L : StdLib) (R : Renderer) (Input : CrawlPageInput)
    (visited : List String) (trace : List Event) :
    ((CrawlPage L R Input
      { visitedURLs := visited, allData := [], trace := trace }).2.allData.map
        (fun r => r.URL)).Nodup := by
  have h := (CrawlPage_new L R Input
    { visitedURLs := visited, allData := [], trace := trace }).1
  rwa [newRecords_of_nil] at h

/-- C2 (depth bound): for every renderer, seed, pattern list and depth `d`, every URL that
`CrawlPage(seed, d)` records or navigates to is the end of a chain of at most `d` rendered
outbound links that starts at the seed; so a page whose every link path from the seed is
longer than `d` is neither rendered nor recorded. -/
theorem depth_bound (L : StdLib) (R : Renderer) (seed : String) (d : Int)
    (pats : List String) (s : State) (u : String)
    (h : (∃ r ∈ newRecords s
            (CrawlPage L R { PageURL := seed, Depth := d, PathPatterns := pats } s).2,
          r.URL = u) ∨
        (∃ res, Event.navigate u res ∈ newEvents s
            (CrawlPage L R { PageURL := seed, Depth := d, PathPatterns := pats } s).2)) :
    ∃ n : Nat, (n : Int) ≤ d ∧
      LinkPath (newEvents s
        (CrawlPage L R { PageURL := seed, Depth := d, PathPatterns := pats } s).2)
        seed n u := by
  have hnew := CrawlPage_new L R { PageURL := seed, Depth := d, PathPatterns := pats } s
  have hc : Crawled L (newEvents s
      (CrawlPage L R { PageURL := seed, Depth := d, PathPatterns := pats } s).2)
      seed pats d u := by
    rcases h with ⟨r, hr, rfl⟩ | ⟨res, hres⟩
    · exact (hnew.2.1 r hr).2
    · exact (hnew.2.2.1 u res hres).2
  obtain ⟨n, hn, hp⟩ := hc.linkPath
  exact ⟨n, le_of_lt hn, hp⟩

/-- C3 (domain restriction): `IsInternalLink` returns false for every link whose hostname
is not the hostname of the URL it is compared with (also when one of the two does not
parse); and when the starting URL of a crawl parses, the URL of every record that
`CrawlPage` appends parses and has the hostname of that starting URL, although every
level of the recursion compares a link with the URL of the current page. -/
theorem external_host_never_followed (L : StdLib) (R : Renderer) :
    (∀ (link : String) (Input : RunnerInput),
      (∀ a b, L.url_Parse link = .ok a → L.url_Parse Input.StartUrl = .ok b →
        a.Hostname ≠ b.Hostname) →
      IsInternalLink L link Input = false) ∧
    (∀ (Input : CrawlPageInput) (s : State) (b : URL),
      L.url_Parse Input.PageURL = .ok b →
      ∀ r ∈ newRecords s (CrawlPage L R Input s).2,
        ∃ a, L.url_Parse r.URL = .ok a ∧ a.Hostname = b.Hostname) := by
  constructor
  · intro link Input hdiff
    cases h : IsInternalLink L link Input with
    | false => rfl
    | true =>
      obtain ⟨a, b, ha, hb, hab⟩ := IsInternalLink_host h
      exact absurd hab (hdiff a b ha hb)
  · intro Input s b hb r hr
    exact ((CrawlPage_new L R Input s).2.1 r hr).2.host b hb

/-- C5 (fragment exclusion): the loop of `CrawlPage` leaves the state as it is at a link
that contains `#` (no recursive call is made for it); hence, at every level of a crawl,
every record appended, every URL added to the visited set and every URL navigated to is
the URL of the starting page or contains no `#`. -/
theorem fragment_links_not_crawled (L : StdLib) (R : Renderer) (Input : CrawlPageInput)
    (s : State) :
    (∀ (st : State) (link : String), strings_Contains link "#" = true →
      followLink L R Input st link = st) ∧
    (∀ r ∈ newRecords s (CrawlPage L R Input s).2, r.URL ≠ Input.PageURL →
      strings_Contains r.URL "#" = false) ∧
    (∀ u ∈ (CrawlPage L R Input s).2.visitedURLs, u ∉ s.visitedURLs →
      u ≠ Input.PageURL → strings_Contains u "#" = false) ∧
    (∀ u res, Event.navigate u res ∈ newEvents s (CrawlPage L R Input s).2 →
      u ≠ Input.PageURL → strings_Contains u "#" = false) := by
  have hnew := CrawlPage_new L R Input s
  refine ⟨?_, ?_, ?_, ?_⟩
  · intro st link hfrag
    simp [followLink, hfrag]
  · intro r hr hne
    exact ((hnew.2.1 r hr).2.fragment).resolve_left hne
  · intro u hu hnot hne
    rcases hnew.2.2.2.1 u hu with h | h
    · exact absurd h hnot
    · exact h.fragment.resolve_left hne
  · intro u res hin hne
    exact ((hnew.2.2.1 u res hin).2.fragment).resolve_left hne

theorem IsInternalLink.loop_eq (L : StdLib) (link : String) :
    ∀ (pats : List String) (pm : Bool),
      (∀ p ∈ pats, ∃ m, L.regexp_Compile p = .ok m) →
      ∃ pm2, IsInternalLink.loop L link pats pm = some pm2 ∧
        (pm2 = true ↔ pm = true ∨ ∃ p ∈ pats, ∃ m, L.regexp_Compile p = .ok m ∧ m link = true)
  | [], pm, _ => ⟨pm, rfl, by simp⟩
  | p :: rest, pm, hcomp => by
    obtain ⟨m, hm⟩ := hcomp p (List.mem_cons_self p rest)
    obtain ⟨pm2, h1, h2⟩ := IsInternalLink.loop_eq L link rest
      (if m link then true else pm) (fun q hq => hcomp q (List.mem_cons_of_mem p hq))
    refine ⟨pm2, by simp only [IsInternalLink.loop, hm, h1], ?_⟩
    rw [h2]
    constructor
    · rintro (h | ⟨q, hq, mq, hmq, hl⟩)
      · by_cases hml : m link = true
        · exact Or.inr ⟨p, List.mem_cons_self p rest, m, hm, hml⟩
        · simp only [hml] at h
          exact Or.inl (by simpa using h)
      · exact Or.inr ⟨q, List.mem_cons_of_mem p hq, mq, hmq, hl⟩
    · rintro (h | ⟨q, hq, mq, hmq, hl⟩)
      · exact Or.inl (by simp [h])
      · rcases List.mem_cons.mp hq with rfl | hq
        · rw [hm] at hmq
          cases hmq
          exact Or.inl (by simp [hl])
        · exact Or.inr ⟨q, hq, mq, hmq, hl⟩

/-- C4 (pattern restriction): when the link and the seed parse and have the same hostname
and every pattern compiles, `IsInternalLink` returns true exactly when some pattern
matches the link string. -/
theorem pattern_restriction (L : StdLib) (link : String) (Input : RunnerInput) (a b : URL)
    (ha : L.url_Parse link = .ok a) (hb : L.url_Parse Input.StartUrl = .ok b)
    (hhost : a.Hostname = b.Hostname)
    (hcomp : ∀ p ∈ Input.PathPatterns, ∃ m, L.regexp_Compile p = .ok m) :
    IsInternalLink L link Input = true ↔
      ∃ p ∈ Input.PathPatterns, ∃ m, L.regexp_Compile p = .ok m ∧ m link = true := by
  obtain ⟨pm2, h1, h2⟩ := IsInternalLink.loop_eq L link Input.PathPatterns false hcomp
  simp only [IsInternalLink, ha, hb, h1, hhost, decide_True, Bool.true_and]
  rw [h2]
  simp

theorem validatePathPatterns.loop_rejects (L : StdLib) (startURLDomain pattern : String)
    (pu : URL) (hp : L.url_Parse pattern = .ok pu) (hne : pu.Hostname ≠ "")
    (hdiff : pu.Hostname ≠ startURLDomain) :
    ∀ pats : List String, pattern ∈ pats →
      ∃ err, validatePathPatterns.loop L startURLDomain pats = some err
  | [], h => absurd h (List.not_mem_nil _)
  | q :: rest, h => by
    by_cases hq : q = pattern
    · subst hq
      refine ⟨"domain in pattern " ++ q ++ " does not match start URL domain", ?_⟩
      simp [validatePathPatterns.loop, extractDomain, hp, hne, hdiff]
    · have hrest : pattern ∈ rest := by
        rcases List.mem_cons.mp h with h | h
        · exact absurd h.symm hq
        · exact h
      obtain ⟨err, herr⟩ := validatePathPatterns.loop_rejects L startURLDomain pattern pu
        hp hne hdiff rest hrest
      unfold validatePathPatterns.loop
      split
      · exact ⟨err, herr⟩
      · split
        · exact ⟨err, herr⟩
        · split
          · exact ⟨_, rfl⟩
          · exact ⟨err, herr⟩

/-- C6 (config rejection): when some pattern of the request parses as a URL with a
non-empty hostname that is not the hostname of the seed URL, `Runner` returns an error
and no records, and leaves the process as it was: no renderer call is added to the
history and the visited set is unchanged. -/
theorem config_rejection (L : StdLib) (R : Renderer) (input : RunnerInput) (p : Process)
    (pattern : String) (pu : URL) (hmem : pattern ∈ input.PathPatterns)
    (hp : L.url_Parse pattern = .ok pu) (hne : pu.Hostname ≠ "")
    (hdiff : ∀ su, L.url_Parse input.StartUrl = .ok su → pu.Hostname ≠ su.Hostname) :
    ∃ err, Runner L R input p = (([], some err), p) := by
  have hval : ∃ err, validateInputs L input = some err := by
    unfold validateInputs
    split
    · exact ⟨_, rfl⟩
    · have hpp : ∃ err, validatePathPatterns L input = some err := by
        unfold validatePathPatterns
        have hlen : input.PathPatterns.length ≠ 0 := by
          intro h0
          rw [List.length_eq_zero] at h0
          rw [h0] at hmem
          exact absurd hmem (List.not_mem_nil _)
        simp only [hlen, if_false]
        cases hs : L.url_Parse input.StartUrl with
        | error e =>
          exact ⟨"error extracting domain from start URL: " ++ e, by simp [extractDomain, hs]⟩
        | ok su =>
          simp only [extractDomain, hs]
          exact validatePathPatterns.loop_rejects L su.Hostname pattern pu hp hne
            (hdiff su hs) input.PathPatterns hmem
      obtain ⟨err, herr⟩ := hpp
      exact ⟨err, by simp [herr]⟩
  obtain ⟨err, herr⟩ := hval
  exact ⟨err, by simp [Runner, herr]⟩

/-- The example crawl, evaluated. -/
theorem exCrawl_eval : CrawlPage exLib exSite exSeed emptyState = (none, exFinal) := by
  simp +decide [CrawlPage, ParsePage, exSite, siteRenderer, emptyState, exSeed, exFinal, exSeedLinks]

theorem exCrawl_newRecords :
    newRecords emptyState (CrawlPage exLib exSite exSeed emptyState).2 = exFinal.allData := by
  rw [exCrawl_eval]
  simp [newRecords, emptyState]

/-- Witness of `depth_bound`: in the example crawl with depth 3 the first blog post is
recorded, and it is one link away from the seed. -/
theorem depth_bound_witness :
    ((∃ r ∈ newRecords emptyState (CrawlPage exLib exSite
          { PageURL := "https://site.com", Depth := 3, PathPatterns := ["/blog/.*"] }
          emptyState).2, r.URL = "https://site.com/blog/a") ∨
      (∃ res, Event.navigate "https://site.com/blog/a" res ∈ newEvents emptyState
        (CrawlPage exLib exSite
          { PageURL := "https://site.com", Depth := 3, PathPatterns := ["/blog/.*"] }
          emptyState).2)) ∧
    ∃ n : Nat, (n : Int) ≤ 3 ∧
      LinkPath (newEvents emptyState (CrawlPage exLib exSite
          { PageURL := "https://site.com", Depth := 3, PathPatterns := ["/blog/.*"] }
          emptyState).2) "https://site.com" n "https://site.com/blog/a" :=
  have h : (∃ r ∈ newRecords emptyState (CrawlPage exLib exSite
          { PageURL := "https://site.com", Depth := 3, PathPatterns := ["/blog/.*"] }
          emptyState).2, r.URL = "https://site.com/blog/a") ∨
      (∃ res, Event.navigate "https://site.com/blog/a" res ∈ newEvents emptyState
        (CrawlPage exLib exSite
          { PageURL := "https://site.com", Depth := 3, PathPatterns := ["/blog/.*"] }
          emptyState).2) :=
    Or.inl ⟨{ URL := "https://site.com/blog/a", Content := "text", Title := "title" },
      by
        have := exCrawl_newRecords
        simp only [exSeed] at this
        rw [this]
        simp [exFinal], rfl⟩
  ⟨h, depth_bound exLib exSite "https://site.com" 3 ["/blog/.*"] emptyState
    "https://site.com/blog/a" h⟩

/-- Witness of `external_host_never_followed`: the link to the other host is not
internal, and the record of the first blog post in the example crawl has the host of the
seed. -/
theorem external_host_never_followed_witness :
    IsInternalLink exLib "https://other.com/x"
      { StartUrl := "https://site.com", PathPatterns := [".*"], Depth := 0 } = false ∧
    ∃ a, exLib.url_Parse "https://site.com/blog/a" = .ok a ∧ a.Hostname = "site.com" :=
  ⟨(external_host_never_followed exLib exSite).1 "https://other.com/x"
      { StartUrl := "https://site.com", PathPatterns := [".*"], Depth := 0 }
      (by
        intro a b ha hb
        simp only [exLib, Except.ok.injEq] at ha hb
        subst ha hb
        decide),
    (external_host_never_followed exLib exSite).2 exSeed emptyState
      { Host := "site.com", Hostname := "site.com" } (by simp +decide [exLib, exSeed])
      { URL := "https://site.com/blog/a", Content := "text", Title := "title" }
      (by rw [exCrawl_newRecords]; simp [exFinal])⟩

/-- Witness of `pattern_restriction`: with the pattern `/blog/.*` a blog post on the host
of the seed is internal. -/
theorem pattern_restriction_witness :
    IsInternalLink exLib "https://site.com/blog/post-1"
        { StartUrl := "https://site.com", PathPatterns := ["/blog/.*"], Depth := 0 } = true ↔
      ∃ p ∈ ["/blog/.*"], ∃ m, exLib.regexp_Compile p = .ok m ∧
        m "https://site.com/blog/post-1" = true :=
  pattern_restriction exLib "https://site.com/blog/post-1"
    { StartUrl := "https://site.com", PathPatterns := ["/blog/.*"], Depth := 0 }
    { Host := "site.com", Hostname := "site.com" }
    { Host := "site.com", Hostname := "site.com" } (by simp +decide [exLib])
    (by simp +decide [exLib]) rfl
    (by
      intro p hp
      rw [List.mem_singleton] at hp
      subst hp
      exact ⟨_, rfl⟩)

/-- The example of the pattern restriction, evaluated: under the pattern `/blog/.*` the
blog post is internal and the page `/about` of the same host is not. -/
theorem pattern_restriction_example :
    IsInternalLink exLib "https://site.com/blog/post-1"
        { StartUrl := "https://site.com", PathPatterns := ["/blog/.*"], Depth := 0 } = true ∧
    IsInternalLink exLib "https://site.com/about"
        { StartUrl := "https://site.com", PathPatterns := ["/blog/.*"], Depth := 0 } = false := by
  decide

/-- Witness of `fragment_links_not_crawled`: in the example crawl the link
`https://site.com/blog/a#top` of the seed page changes nothing, and the record of the
first blog post, which is not the seed, has no `#`. -/
theorem fragment_links_not_crawled_witness :
    followLink exLib exSite exSeed emptyState "https://site.com/blog/a#top" = emptyState ∧
    strings_Contains "https://site.com/blog/a" "#" = false :=
  ⟨(fragment_links_not_crawled exLib exSite exSeed emptyState).1 emptyState
      "https://site.com/blog/a#top" (by decide),
    (fragment_links_not_crawled exLib exSite exSeed emptyState).2.1
      { URL := "https://site.com/blog/a", Content := "text", Title := "title" }
      (by rw [exCrawl_newRecords]; simp [exFinal]) (by decide)⟩

/-- Witness of `config_rejection`: the pattern `https://other.com/x` with the seed
`https://site.com` is rejected, whatever the process state. -/
theorem config_rejection_witness :
    ∃ err, Runner exLib exSite
      { StartUrl := "https://site.com", PathPatterns := ["/blog/.*", "https://other.com/x"],
        Depth := 3 } { visitedURLs := [], trace := [] } =
      (([], some err), { visitedURLs := [], trace := [] }) :=
  config_rejection exLib exSite
    { StartUrl := "https://site.com", PathPatterns := ["/blog/.*", "https://other.com/x"],
      Depth := 3 } { visitedURLs := [], trace := [] } "https://other.com/x"
    { Host := "other.com", Hostname := "other.com" } (by decide)
    (by simp +decide [exLib]) (by decide)
    (by
      intro su hsu
      simp only [exLib, Except.ok.injEq] at hsu
      subst hsu
      decide)

theorem followLink_visited_mono (L : StdLib) (R : Renderer) (Input : CrawlPageInput)
    (st : State) (link u : String) (hu : u ∈ st.visitedURLs) :
    u ∈ (followLink L R Input st link).visitedURLs := by
  unfold followLink
  split
  · exact (CrawlPage_new L R _ st).2.2.2.2 u hu
  · exact hu

/-- A call of `CrawlPage` with positive depth leaves its page in the visited set. -/
theorem CrawlPage_claims (L : StdLib) (R : Renderer) :
    ∀ Input s, 0 < Input.Depth → Input.PageURL ∈ (CrawlPage L R Input s).2.visitedURLs := by
  refine CrawlPage_induct L R
    (fun Input _ res => 0 < Input.Depth → Input.PageURL ∈ res.2.visitedURLs) ?_ ?_ ?_ ?_ ?_
  · intro Input s h0 h1; omega
  · intro Input s _ hv _; exact hv
  · intro Input s err _ _ _ _; exact List.mem_cons_self _ _
  · intro Input s title data err _ _ _ _ _; exact List.mem_cons_self _ _
  · intro Input s title data links _ _ _ _ _ _
    exact foldl_invariant (fun st : State => Input.PageURL ∈ st.visitedURLs)
      (followLink L R Input) links _ (List.mem_cons_self _ _)
      (fun st link _ h => followLink_visited_mono L R Input st link _ h)

/-- C8 (expansion below the seed), the program at the failing input: in the example crawl
with depth 3 the post `/blog/a` is rendered by a recursive call with depth 2 and yields
the link `/blog/b`; that link has the host of the seed, matches the pattern `/blog/.*` of
the request and has no `#`, and yet it is not in the visited set when the crawl returns,
because the recursive call was made without the patterns. -/
theorem expansion_loses_patterns :
    CrawlPage exLib exSite exSeed emptyState = (none, exFinal) ∧
    [Event.navigate "https://site.com/blog/a" (.ok ("title", "text")),
      Event.evaluate (.ok ["https://site.com/blog/b", "https://site.com"])] <:+:
        exFinal.trace ∧
    IsInternalLink exLib "https://site.com/blog/b"
      { StartUrl := "https://site.com", PathPatterns := ["/blog/.*"], Depth := 0 } = true ∧
    IsInternalLink exLib "https://site.com/blog/b"
      { StartUrl := "https://site.com/blog/a", PathPatterns := ["/blog/.*"], Depth := 0 } =
        true ∧
    strings_Contains "https://site.com/blog/b" "#" = false ∧
    "https://site.com/blog/b" ∉ exFinal.visitedURLs ∧
    IsInternalLink exLib "https://site.com/blog/b"
      { StartUrl := "https://site.com/blog/a", PathPatterns := [], Depth := 0 } = false := by
  refine ⟨exCrawl_eval, ?_, by decide, by decide, by decide, by decide, by decide⟩
  exact ⟨[Event.navigate "https://site.com" (.ok ("title", "text")),
      Event.evaluate (.ok exSeedLinks)],
    [Event.navigate "https://site.com/blog/bad" (.error "net::ERR_FAILED"),
      Event.navigate "https://site.com/blog/c" (.ok ("title", "text")),
      Event.evaluate (.ok [])], rfl⟩

theorem exNoLinks_crawl :
    CrawlPage exLib exNoLinks exSeed emptyState =
      (some "context deadline exceeded",
        { visitedURLs := ["https://site.com"],
          allData := [{ URL := "https://site.com", Content := "text", Title := "title" }],
          trace := [Event.navigate "https://site.com" (.ok ("title", "text")),
            Event.evaluate (.error "context deadline exceeded")] }) := by
  simp +decide [CrawlPage, ParsePage, exNoLinks, siteRenderer, emptyState, exSeed]

theorem exRequest_valid : validateInputs exLib exRequest = none := by decide

theorem exNoLinks_run :
    (Runner exLib exNoLinks exRequest freshProcess).1 = ([], some "Crawl Error") := by
  have hc := exNoLinks_crawl
  have hv := exRequest_valid
  simp only [exSeed, emptyState] at hc
  simp only [exRequest] at hv
  simp [Runner, hv, exRequest, freshProcess, hc]

/-- C9, counterexample: against the renderer whose link reads fail, the request passes
validation, the crawl of the seed appends the record of the seed and then fails, and
`Runner` returns an error with a record sequence that does not contain that record. -/
theorem late_failure_discards_records :
    validateInputs exLib exRequest = none ∧
    ({ URL := "https://site.com", Content := "text", Title := "title" } : RunnerOutput) ∈
      (CrawlPage exLib exNoLinks exSeed emptyState).2.allData ∧
    (Runner exLib exNoLinks exRequest freshProcess).1.2 ≠ none ∧
    ({ URL := "https://site.com", Content := "text", Title := "title" } : RunnerOutput) ∉
      (Runner exLib exNoLinks exRequest freshProcess).1.1 := by
  refine ⟨exRequest_valid, ?_, ?_, ?_⟩
  · rw [exNoLinks_crawl]; simp
  · rw [exNoLinks_run]; simp
  · rw [exNoLinks_run]; simp

/-- C9 as amended: whenever `Runner` returns an error, the record sequence it returns is
empty; the records appended before the failure are not returned. -/
theorem runner_error_returns_no_records (L : StdLib) (R : Renderer) (input : RunnerInput)
    (p : Process) (h : (Runner L R input p).1.2 ≠ none) :
    (Runner L R input p).1.1 = [] := by
  unfold Runner at h ⊢
  simp only at h ⊢
  split
  · rfl
  · split
    · rfl
    · rename_i h1 _ _ h2
      rw [h1] at h
      simp only [h2] at h
      exact absurd rfl h

/-- Witness of `runner_error_returns_no_records`: the run against the renderer whose link
reads fail returns an error and no records. -/
theorem runner_error_returns_no_records_witness :
    (Runner exLib exNoLinks exRequest freshProcess).1.2 ≠ none ∧
    (Runner exLib exNoLinks exRequest freshProcess).1.1 = [] :=
  have h : (Runner exLib exNoLinks exRequest freshProcess).1.2 ≠ none := by
    rw [exNoLinks_run]; simp
  ⟨h, runner_error_returns_no_records exLib exNoLinks exRequest freshProcess h⟩

theorem exSite_run :
    Runner exLib exSite exRequest freshProcess =
      ((exFinal.allData, none),
        { visitedURLs := exFinal.visitedURLs, trace := exFinal.trace }) := by
  have hc := exCrawl_eval
  have hv := exRequest_valid
  simp only [exSeed, emptyState] at hc
  simp only [exRequest] at hv
  simp [Runner, hv, exRequest, freshProcess, hc]

theorem validateInputs_depth (L : StdLib) (input : RunnerInput) (d : Int) :
    validateInputs L { input with Depth := d } = validateInputs L input := rfl

/-- C11 (default depth): a request with `Depth < 1` gives exactly the result and the
process state of the same request with `Depth = 3`; for a valid request with
`Depth ≥ 1` the crawl that `Runner` runs is `CrawlPage` at the seed with the given depth:
it leaves the visited set and the renderer history of that call, fails exactly when that
call fails, and otherwise returns the output of that call. -/
theorem default_depth (L : StdLib) (R : Renderer) (input : RunnerInput) (p : Process) :
    (input.Depth < 1 → Runner L R input p = Runner L R { input with Depth := 3 } p) ∧
    (1 ≤ input.Depth → validateInputs L input = none →
      (Runner L R input p).2.visitedURLs =
        (CrawlPage L R
          { PageURL := input.StartUrl, Depth := input.Depth,
            PathPatterns := input.PathPatterns }
          { visitedURLs := p.visitedURLs, allData := [], trace := p.trace }).2.visitedURLs ∧
      (Runner L R input p).2.trace =
        (CrawlPage L R
          { PageURL := input.StartUrl, Depth := input.Depth,
            PathPatterns := input.PathPatterns }
          { visitedURLs := p.visitedURLs, allData := [], trace := p.trace }).2.trace ∧
      ((Runner L R input p).1.2 = none ↔
        (CrawlPage L R
          { PageURL := input.StartUrl, Depth := input.Depth,
            PathPatterns := input.PathPatterns }
          { visitedURLs := p.visitedURLs, allData := [], trace := p.trace }).1 = none) ∧
      ((Runner L R input p).1.2 = none →
        (Runner L R input p).1.1 =
          (CrawlPage L R
            { PageURL := input.StartUrl, Depth := input.Depth,
              PathPatterns := input.PathPatterns }
            { visitedURLs := p.visitedURLs, allData := [], trace := p.trace }).2.allData)) := by
  constructor
  · intro hd
    unfold Runner
    simp only [validateInputs_depth, hd, if_true]
    simp
  · intro hd hv
    have hnot : ¬ input.Depth < 1 := by omega
    unfold Runner
    simp only [hv, hnot, if_false]
    generalize CrawlPage L R _ _ = res
    obtain ⟨e, s⟩ := res
    cases e with
    | some err => simp
    | none => simp

/-- Witness of `default_depth`: the example request with depth 0 gives the result of the
same request with depth 3, and the run with depth 3 leaves the visited set of the crawl
of the seed with depth 3. -/
theorem default_depth_witness :
    Runner exLib exSite
        { StartUrl := "https://site.com", PathPatterns := ["/blog/.*"], Depth := 0 }
        freshProcess =
      Runner exLib exSite
        { StartUrl := "https://site.com", PathPatterns := ["/blog/.*"], Depth := 3 }
        freshProcess ∧
    (Runner exLib exSite exRequest freshProcess).2.visitedURLs =
      (CrawlPage exLib exSite
        { PageURL := "https://site.com", Depth := 3, PathPatterns := ["/blog/.*"] }
        { visitedURLs := [], allData := [], trace := [] }).2.visitedURLs :=
  ⟨(default_depth exLib exSite
      { StartUrl := "https://site.com", PathPatterns := ["/blog/.*"], Depth := 0 }
      freshProcess).1 (by decide),
    ((default_depth exLib exSite exRequest freshProcess).2 (by decide) exRequest_valid).1⟩

theorem validatePathPatterns.loop_accepts (L : StdLib) (startURLDomain : String) :
    ∀ pats : List String,
      (∀ p ∈ pats, ∀ pu, L.url_Parse p = .ok pu → pu.Hostname ≠ "" →
        pu.Hostname = startURLDomain) →
      validatePathPatterns.loop L startURLDomain pats = none
  | [], _ => rfl
  | q :: rest, h => by
    have hrest := validatePathPatterns.loop_accepts L startURLDomain rest
      (fun p hp => h p (List.mem_cons_of_mem q hp))
    unfold validatePathPatterns.loop
    cases hq : L.url_Parse q with
    | error e => simpa [extractDomain, hq] using hrest
    | ok pu =>
      simp only [extractDomain, hq]
      by_cases hempty : pu.Hostname = ""
      · simpa [hempty] using hrest
      · have := h q (List.mem_cons_self q rest) pu hq hempty
        simpa [hempty, this] using hrest

/-- C12 (pattern validation): when the seed URL parses, `validatePathPatterns` returns
an error exactly when some pattern of the list parses as a URL with a non-empty hostname
that is not the hostname of the seed, so patterns that do not parse or have no host never
cause an error; and an empty pattern list is accepted whatever the seed is. -/
theorem validatePathPatterns_iff (L : StdLib) (input : RunnerInput) (su : URL)
    (hs : L.url_Parse input.StartUrl = .ok su) :
    (validatePathPatterns L input ≠ none ↔
      ∃ p ∈ input.PathPatterns, ∃ pu, L.url_Parse p = .ok pu ∧ pu.Hostname ≠ "" ∧
        pu.Hostname ≠ su.Hostname) ∧
    (∀ (seed : String) (depth : Int),
      validatePathPatterns L { StartUrl := seed, PathPatterns := [], Depth := depth } =
        none) := by
  refine ⟨⟨?_, ?_⟩, fun seed depth => rfl⟩
  · intro herr
    by_contra hno
    apply herr
    unfold validatePathPatterns
    split
    · rfl
    · simp only [extractDomain, hs]
      apply validatePathPatterns.loop_accepts
      intro p hp pu hpu hne
      by_contra hdiff
      exact hno ⟨p, hp, pu, hpu, hne, hdiff⟩
  · rintro ⟨p, hp, pu, hpu, hne, hdiff⟩
    have hlen : input.PathPatterns.length ≠ 0 := by
      intro h0
      rw [List.length_eq_zero] at h0
      rw [h0] at hp
      exact absurd hp (List.not_mem_nil _)
    obtain ⟨err, herr⟩ := validatePathPatterns.loop_rejects L su.Hostname p pu hpu hne
      hdiff input.PathPatterns hp
    unfold validatePathPatterns
    simp [hlen, extractDomain, hs, herr]

/-- Witness of `validatePathPatterns_iff`: with the seed `https://site.com` the list of
a bare path and a URL on another host is rejected, because of the second pattern. -/
theorem validatePathPatterns_iff_witness :
    validatePathPatterns exLib
        { StartUrl := "https://site.com",
          PathPatterns := ["/blog/.*", "https://other.com/x"], Depth := 3 } ≠ none ↔
      ∃ p ∈ ["/blog/.*", "https://other.com/x"], ∃ pu, exLib.url_Parse p = .ok pu ∧
        pu.Hostname ≠ "" ∧ pu.Hostname ≠ "site.com" :=
  (validatePathPatterns_iff exLib
    { StartUrl := "https://site.com", PathPatterns := ["/blog/.*", "https://other.com/x"],
      Depth := 3 }
    { Host := "site.com", Hostname := "site.com" } (by simp +decide [exLib])).1

theorem IsInternalLink_nil (L : StdLib) (link seed : String) (depth : Int) :
    IsInternalLink L link { StartUrl := seed, PathPatterns := [], Depth := depth } =
      false := by
  unfold IsInternalLink
  split
  · rfl
  · split
    · rfl
    · simp [IsInternalLink.loop]

/-- C14 (empty pattern list): with an empty pattern list `IsInternalLink` returns false
for every link and every seed, whatever their hostnames. -/
theorem empty_patterns_allow_nothing (L : StdLib) (link seed : String) (depth : Int) :
    IsInternalLink L link { StartUrl := seed, PathPatterns := [], Depth := depth } =
      false :=
  IsInternalLink_nil L link seed depth

/-- C15 (seed validation): `validateURL` accepts a string exactly when
`url.ParseRequestURI` parses it and the parsed URL has a non-empty host; when it does not
accept the seed, `validateInputs` fails with the error `invalid URL` whatever the path
patterns are. -/
theorem validateURL_accepts_iff (L : StdLib) (u : String) :
    (validateURL L u = none ↔
      ∃ url, L.url_ParseRequestURI u = .ok url ∧ url.Host ≠ "") ∧
    (validateURL L u ≠ none → ∀ (pats : List String) (depth : Int),
      validateInputs L { StartUrl := u, PathPatterns := pats, Depth := depth } =
        some "invalid URL") := by
  have hcases : validateURL L u = none ∨ validateURL L u = some "invalid URL" := by
    unfold validateURL
    split
    · exact Or.inr rfl
    · split
      · exact Or.inr rfl
      · exact Or.inl rfl
  constructor
  · unfold validateURL
    cases hp : L.url_ParseRequestURI u with
    | error e => simp
    | ok url =>
      by_cases hh : url.Host = ""
      · simp [hh]
      · simp [hh]
  · intro hne pats depth
    rcases hcases with h | h
    · exact absurd h hne
    · simp [validateInputs, h]

/-- Witness of `validateURL_accepts_iff`: the seed `/blog`, which parses with an empty
host, is rejected with `invalid URL` although the pattern list holds a URL of another
host. -/
theorem validateURL_accepts_iff_witness :
    validateInputs exLib
      { StartUrl := "/blog", PathPatterns := ["https://other.com/x"], Depth := 3 } =
        some "invalid URL" :=
  (validateURL_accepts_iff exLib "/blog").2 (by decide) ["https://other.com/x"] 3

theorem IsInternalLink.loop_bad (L : StdLib) (link bad : String) (e : Error)
    (hcomp : L.regexp_Compile bad = .error e) :
    ∀ (pats : List String) (pm : Bool), bad ∈ pats →
      IsInternalLink.loop L link pats pm = none
  | [], _, h => absurd h (List.not_mem_nil _)
  | q :: rest, pm, h => by
    unfold IsInternalLink.loop
    cases hq : L.regexp_Compile q with
    | error _ => rfl
    | ok m =>
      have hrest : bad ∈ rest := by
        rcases List.mem_cons.mp h with h | h
        · rw [h, hq] at hcomp
          cases hcomp
        · exact h
      exact IsInternalLink.loop_bad L link bad e hcomp rest _ hrest

/-- C13 (malformed patterns fail closed): when some pattern of the list does not compile,
`IsInternalLink` returns false for every link and every seed, whatever the other patterns
and the hostnames are; so the loop of `CrawlPage` leaves the state as it is at every
link, and a call of `CrawlPage` whose page renders and yields its links returns no error
and stops in the state reached right after the links were read. -/
theorem malformed_pattern_fails_closed (L : StdLib) (R : Renderer) (Input : CrawlPageInput)
    (bad : String) (e : Error) (hbad : bad ∈ Input.PathPatterns)
    (hcomp : L.regexp_Compile bad = .error e) :
    (∀ (link seed : String) (depth : Int),
      IsInternalLink L link
        { StartUrl := seed, PathPatterns := Input.PathPatterns, Depth := depth } = false) ∧
    (∀ (st : State) (link : String), followLink L R Input st link = st) ∧
    (∀ (s : State) (title data : String) (links : List String),
      0 < Input.Depth → Input.PageURL ∉ s.visitedURLs →
      R.page s.trace Input.PageURL = .ok (title, data) →
      R.links (s.trace ++ [Event.navigate Input.PageURL (.ok (title, data))]) = .ok links →
      CrawlPage L R Input s =
        (none, rendered s Input.PageURL title data (.ok links))) := by
  have h1 : ∀ (link seed : String) (depth : Int),
      IsInternalLink L link
        { StartUrl := seed, PathPatterns := Input.PathPatterns, Depth := depth } = false := by
    intro link seed depth
    unfold IsInternalLink
    split
    · rfl
    · split
      · rfl
      · simp only [IsInternalLink.loop_bad L link bad e hcomp Input.PathPatterns false hbad]
  have h2 : ∀ (st : State) (link : String), followLink L R Input st link = st := by
    intro st link
    simp [followLink, h1]
  refine ⟨h1, h2, ?_⟩
  intro s title data links hd hv hp hl
  rw [CrawlPage_links_ok L R Input s title data links hd hv hp hl]
  congr 1
  exact foldl_invariant
    (fun st : State => st = rendered s Input.PageURL title data (.ok links))
    (followLink L R Input) links _ rfl (fun st link _ hst => by rw [h2]; exact hst)

/-- Witness of `malformed_pattern_fails_closed`: with the patterns `/blog/.*` and `(`,
of which the second does not compile, the first blog post is not internal although it has
the host of the seed and matches the first pattern; and the crawl of the seed of the
example site returns no error, having rendered the seed only. -/
theorem malformed_pattern_fails_closed_witness :
    IsInternalLink exLib "https://site.com/blog/a"
      { StartUrl := "https://site.com", PathPatterns := ["/blog/.*", "("], Depth := 0 } =
        false ∧
    CrawlPage exLib exSite
      { PageURL := "https://site.com", Depth := 3, PathPatterns := ["/blog/.*", "("] }
      emptyState =
        (none, rendered emptyState "https://site.com" "title" "text" (.ok exSeedLinks)) :=
  have h := malformed_pattern_fails_closed exLib exSite
    { PageURL := "https://site.com", Depth := 3, PathPatterns := ["/blog/.*", "("] }
    "(" "error parsing regexp" (by decide) (by simp +decide [exLib])
  ⟨h.1 "https://site.com/blog/a" "https://site.com" 0,
    h.2.2 emptyState "title" "text" exSeedLinks (by decide) (by simp [emptyState])
      (by simp [exSite, siteRenderer])
      (by simp [exSite, siteRenderer, emptyState, exSeedLinks])⟩

/-- C16 (depth exhausted): a call of `CrawlPage` with depth at most 0 returns no error and
leaves the state as it was: no renderer call is added to the history, the output and the
visited set are unchanged. -/
theorem depth_exhausted_no_work (L : StdLib) (R : Renderer) (Input : CrawlPageInput)
    (s : State) (h : Input.Depth ≤ 0) : CrawlPage L R Input s = (none, s) :=
  CrawlPage_depth_le L R Input s h

/-- Witness of `depth_exhausted_no_work`: the seed of the example site with depth 0. -/
theorem depth_exhausted_no_work_witness :
    CrawlPage exLib exSite
      { PageURL := "https://site.com", Depth := 0, PathPatterns := ["/blog/.*"] }
      emptyState = (none, emptyState) :=
  depth_exhausted_no_work exLib exSite
    { PageURL := "https://site.com", Depth := 0, PathPatterns := ["/blog/.*"] }
    emptyState (by decide)

/-- C17 (ledger): a call of `CrawlPage` with positive depth on a page that is in the
visited set returns no error and leaves the state as it was (no renderer call, output and
visited set unchanged); on a page that is not in the visited set it leaves the page in
the visited set; and whatever a call returns, every URL that was in the visited set
before it is in the visited set after it. -/
theorem ledger_semantics (L : StdLib) (R : Renderer) (Input : CrawlPageInput) (s : State) :
    (0 < Input.Depth → Input.PageURL ∈ s.visitedURLs →
      CrawlPage L R Input s = (none, s)) ∧
    (0 < Input.Depth → Input.PageURL ∉ s.visitedURLs →
      Input.PageURL ∈ (CrawlPage L R Input s).2.visitedURLs) ∧
    (∀ u ∈ s.visitedURLs, u ∈ (CrawlPage L R Input s).2.visitedURLs) :=
  ⟨fun _ hv => CrawlPage_visited L R Input s hv,
    fun hd _ => CrawlPage_claims L R Input s hd,
    (CrawlPage_new L R Input s).2.2.2.2⟩

/-- Witness of `ledger_semantics`: on the example site, the seed crawled once more in
the state the example crawl left changes nothing; crawled from the empty state it is in
the visited set afterwards; and a URL visited before stays visited. -/
theorem ledger_semantics_witness :
    CrawlPage exLib exSite exSeed exFinal = (none, exFinal) ∧
    "https://site.com" ∈ (CrawlPage exLib exSite exSeed emptyState).2.visitedURLs ∧
    "https://site.com/blog/c" ∈ (CrawlPage exLib exSite exSeed exFinal).2.visitedURLs :=
  ⟨(ledger_semantics exLib exSite exSeed exFinal).1 (by decide) (by simp [exSeed, exFinal]),
    (ledger_semantics exLib exSite exSeed emptyState).2.1 (by decide)
      (by simp [emptyState]),
    (ledger_semantics exLib exSite exSeed exFinal).2.2 "https://site.com/blog/c"
      (by simp [exFinal])⟩

/-- C18 (termination): for every page, integer depth, pattern list, renderer and state,
the run of `CrawlPage` in which calls may nest at most `fuel` deep does not give up as
soon as `fuel` exceeds the depth, and it returns what `CrawlPage` returns: every
recursive call is made with the depth reduced by one and a call with depth at most 0
returns at once, so calls nest at most `depth + 1` deep, whatever cycles the links
form. -/
theorem CrawlPage_terminates (L : StdLib) (R : Renderer) :
    ∀ (fuel : Nat) (Input : CrawlPageInput) (s : State), Input.Depth.toNat < fuel →
      CrawlPageFuel L R fuel Input s = some (CrawlPage L R Input s) := by
  intro fuel
  induction fuel with
  | zero => intro Input s h; omega
  | succ fuel ih =>
    intro Input s hfuel
    by_cases hd : Input.Depth ≤ 0
    · rw [CrawlPage_depth_le L R Input s hd]
      simp [CrawlPageFuel, hd]
    · have hpos : 0 < Input.Depth := not_le.mp hd
      by_cases hv : Input.PageURL ∈ s.visitedURLs
      · rw [CrawlPage_visited L R Input s hv]
        simp [CrawlPageFuel, hd, hv]
      · cases hp : R.page s.trace Input.PageURL with
        | error err =>
          rw [CrawlPage_page_error L R Input s err hpos hv hp]
          simp [CrawlPageFuel, hd, hv, ParsePage, hp]
        | ok td =>
          obtain ⟨title, data⟩ := td
          cases hl : R.links (s.trace ++ [Event.navigate Input.PageURL (.ok (title, data))]) with
          | error err =>
            rw [CrawlPage_links_error L R Input s title data err hpos hv hp hl]
            simp [CrawlPageFuel, hd, hv, ParsePage, hp, hl, rendered]
          | ok links =>
            rw [CrawlPage_links_ok L R Input s title data links hpos hv hp hl]
            have hloop : ∀ (ls : List String) (st : State),
                ls.foldl (fun acc link =>
                  match acc with
                  | none => none
                  | some st =>
                    if IsInternalLink L link
                          { StartUrl := Input.PageURL, PathPatterns := Input.PathPatterns,
                            Depth := 0 }
                        && !strings_Contains link "#" then
                      (CrawlPageFuel L R fuel
                        { PageURL := link, Depth := Input.Depth - 1,
                          PathPatterns := [] } st).map Prod.snd
                    else some st) (some st) =
                  some (ls.foldl (followLink L R Input) st) := by
              intro ls
              induction ls with
              | nil => intro st; rfl
              | cons link rest ihl =>
                intro st
                rw [List.foldl_cons, List.foldl_cons]
                have hstep : (if IsInternalLink L link
                      { StartUrl := Input.PageURL, PathPatterns := Input.PathPatterns,
                        Depth := 0 }
                    && !strings_Contains link "#" then
                    (CrawlPageFuel L R fuel
                      { PageURL := link, Depth := Input.Depth - 1,
                        PathPatterns := [] } st).map Prod.snd
                  else some st) = some (followLink L R Input st link) := by
                  unfold followLink
                  split
                  · rw [ih _ st (by simp only []; omega)]
                    rfl
                  · rfl
                simp only [hstep]
                exact ihl _
            simp only [CrawlPageFuel, hd, hv, ParsePage, hp, hl, if_false]
            rw [hloop]
            simp [rendered]

/-- Witness of `CrawlPage_terminates`: the example crawl with depth 3 run with calls
nested at most 4 deep returns the result of the example crawl. -/
theorem CrawlPage_terminates_witness :
    CrawlPageFuel exLib exSite 4 exSeed emptyState =
      some (CrawlPage exLib exSite exSeed emptyState) :=
  CrawlPage_terminates exLib exSite 4 exSeed emptyState (by decide)

theorem followLink_allData (L : StdLib) (R : Renderer) (Input : CrawlPageInput)
    (st : State) (link : String) :
    (followLink L R Input st link).allData =
      st.allData ++ newRecords st (followLink L R Input st link) := by
  have h : ∃ d, (followLink L R Input st link).allData = st.allData ++ d := by
    unfold followLink
    split
    · obtain ⟨v, d, t, _, hd, _⟩ := CrawlPage_effect L R
        { PageURL := link, Depth := Input.Depth - 1, PathPatterns := [] } st
      exact ⟨d, hd⟩
    · exact ⟨[], by simp⟩
  obtain ⟨d, hd⟩ := h
  rw [newRecords, hd, List.drop_left]

theorem foldl_followLink_allData (L : StdLib) (R : Renderer) (Input : CrawlPageInput) :
    ∀ (links : List String) (st : State),
      (links.foldl (followLink L R Input) st).allData =
        st.allData ++ linkRecords L R Input st links
  | [], st => by simp [linkRecords]
  | link :: rest, st => by
    rw [List.foldl_cons, foldl_followLink_allData L R Input rest, linkRecords,
      followLink_allData L R Input st link, List.append_assoc]

/-- What a call of `CrawlPage` appends starts with the record of its page, when it
appends anything. -/
theorem CrawlPage_records_shape (L : StdLib) (R : Renderer) (Input : CrawlPageInput)
    (s : State) :
    (CrawlPage L R Input s).2.allData = s.allData ∨
    ∃ title data rest, (CrawlPage L R Input s).2.allData =
      s.allData ++ ({ URL := Input.PageURL, Content := data, Title := title } :
        RunnerOutput) :: rest := by
  by_cases hd : Input.Depth ≤ 0
  · rw [CrawlPage_depth_le L R Input s hd]; exact Or.inl rfl
  · have hpos : 0 < Input.Depth := not_le.mp hd
    by_cases hv : Input.PageURL ∈ s.visitedURLs
    · rw [CrawlPage_visited L R Input s hv]; exact Or.inl rfl
    · cases hp : R.page s.trace Input.PageURL with
      | error err =>
        rw [CrawlPage_page_error L R Input s err hpos hv hp]; exact Or.inl rfl
      | ok td =>
        obtain ⟨title, data⟩ := td
        cases hl : R.links (s.trace ++ [Event.navigate Input.PageURL (.ok (title, data))]) with
        | error err =>
          rw [CrawlPage_links_error L R Input s title data err hpos hv hp hl]
          exact Or.inr ⟨title, data, [], rfl⟩
        | ok links =>
          rw [CrawlPage_links_ok L R Input s title data links hpos hv hp hl]
          refine Or.inr ⟨title, data, linkRecords L R Input
            (rendered s Input.PageURL title data (.ok links)) links, ?_⟩
          simp only [foldl_followLink_allData, rendered, List.append_assoc,
            List.singleton_append]

theorem Runner_records (L : StdLib) (R : Renderer) (input : RunnerInput) (p : Process) :
    (Runner L R input p).1.1 = [] ∨
    ((Runner L R input p).1.2 = none ∧
      (Runner L R input p).1.1 =
        (CrawlPage L R
          { PageURL := input.StartUrl,
            Depth := if input.Depth < 1 then 3 else input.Depth,
            PathPatterns := input.PathPatterns }
          { visitedURLs := p.visitedURLs, allData := [], trace := p.trace }).2.allData ∧
      (Runner L R input p).2.visitedURLs =
        (CrawlPage L R
          { PageURL := input.StartUrl,
            Depth := if input.Depth < 1 then 3 else input.Depth,
            PathPatterns := input.PathPatterns }
          { visitedURLs := p.visitedURLs, allData := [], trace := p.trace }).2.visitedURLs ∧
      (Runner L R input p).2.trace =
        (CrawlPage L R
          { PageURL := input.StartUrl,
            Depth := if input.Depth < 1 then 3 else input.Depth,
            PathPatterns := input.PathPatterns }
          { visitedURLs := p.visitedURLs, allData := [], trace := p.trace }).2.trace) := by
  unfold Runner
  simp only
  cases validateInputs L input with
  | some err => exact Or.inl rfl
  | none =>
    simp only
    generalize CrawlPage L R _ _ = res
    obtain ⟨e, s⟩ := res
    cases e with
    | some err => exact Or.inl rfl
    | none => exact Or.inr ⟨rfl, rfl, rfl, rfl⟩

/-- C19, counterexample: against the renderer whose link reads fail, the seed is newly
claimed and renders, and its record is the first record of the output collection of the
crawl; but the crawl fails afterwards and the result of `Runner` has no first element. -/
theorem seed_record_not_returned_on_failure :
    "https://site.com" ∉ freshProcess.visitedURLs ∧
    exNoLinks.page freshProcess.trace "https://site.com" = .ok ("title", "text") ∧
    (CrawlPage exLib exNoLinks exSeed emptyState).2.allData.head? =
      some { URL := "https://site.com", Content := "text", Title := "title" } ∧
    (Runner exLib exNoLinks exRequest freshProcess).1.1.head? = none := by
  refine ⟨by simp [freshProcess], rfl, ?_, ?_⟩
  · rw [exNoLinks_crawl]; rfl
  · rw [exNoLinks_run]; rfl

/-- C19 as amended (append-only output, a page before its descendants): the output before
a call of `CrawlPage` is a prefix of the output after it; when the page is newly claimed
and renders, the first record appended is the record of the page, and when its links are
read it is followed by the records that the links produce, in the order of the links;
and when the seed is not in the visited set and `Runner` returns no error, the seed has
rendered and its record is the first element of the result of `Runner`, followed by the
records that the links of the seed page produce; whenever the result of `Runner` is not
empty, its first element is the record of the seed. -/
theorem output_append_only (L : StdLib) (R : Renderer) :
    (∀ (Input : CrawlPageInput) (s : State),
      s.allData <+: (CrawlPage L R Input s).2.allData) ∧
    (∀ (Input : CrawlPageInput) (s : State) (title data : String),
      0 < Input.Depth → Input.PageURL ∉ s.visitedURLs →
      R.page s.trace Input.PageURL = .ok (title, data) →
      (∃ rest, (CrawlPage L R Input s).2.allData =
        s.allData ++ ({ URL := Input.PageURL, Content := data, Title := title } :
          RunnerOutput) :: rest) ∧
      ∀ links,
        R.links (s.trace ++ [Event.navigate Input.PageURL (.ok (title, data))]) =
          .ok links →
        (CrawlPage L R Input s).2.allData =
          s.allData ++ ({ URL := Input.PageURL, Content := data, Title := title } :
            RunnerOutput) ::
              linkRecords L R Input (rendered s Input.PageURL title data (.ok links))
                links) ∧
    (∀ (input : RunnerInput) (p : Process),
      input.StartUrl ∉ p.visitedURLs → (Runner L R input p).1.2 = none →
      ∃ title data links,
        R.page p.trace input.StartUrl = .ok (title, data) ∧
        R.links (p.trace ++ [Event.navigate input.StartUrl (.ok (title, data))]) =
          .ok links ∧
        (Runner L R input p).1.1 =
          ({ URL := input.StartUrl, Content := data, Title := title } : RunnerOutput) ::
            linkRecords L R
              { PageURL := input.StartUrl,
                Depth := if input.Depth < 1 then 3 else input.Depth,
                PathPatterns := input.PathPatterns }
              (rendered { visitedURLs := p.visitedURLs, allData := [], trace := p.trace }
                input.StartUrl title data (.ok links)) links) ∧
    (∀ (input : RunnerInput) (p : Process) (r : RunnerOutput),
      (Runner L R input p).1.1.head? = some r → r.URL = input.StartUrl) := by
  have hlinks : ∀ (Input : CrawlPageInput) (s : State) (title data : String),
      0 < Input.Depth → Input.PageURL ∉ s.visitedURLs →
      R.page s.trace Input.PageURL = .ok (title, data) →
      ∀ links,
        R.links (s.trace ++ [Event.navigate Input.PageURL (.ok (title, data))]) =
          .ok links →
        (CrawlPage L R Input s).2.allData =
          s.allData ++ ({ URL := Input.PageURL, Content := data, Title := title } :
            RunnerOutput) ::
              linkRecords L R Input (rendered s Input.PageURL title data (.ok links))
                links := by
    intro Input s title data hd hv hp links hl
    rw [CrawlPage_links_ok L R Input s title data links hd hv hp hl]
    simp only [foldl_followLink_allData, rendered, List.append_assoc,
      List.singleton_append]
  refine ⟨?_, ?_, ?_, ?_⟩
  · intro Input s
    obtain ⟨v, d, t, _, hd, _⟩ := CrawlPage_effect L R Input s
    exact ⟨d, hd.symm⟩
  · intro Input s title data hd hv hp
    refine ⟨?_, hlinks Input s title data hd hv hp⟩
    cases hl : R.links (s.trace ++ [Event.navigate Input.PageURL (.ok (title, data))]) with
    | error err =>
      rw [CrawlPage_links_error L R Input s title data err hd hv hp hl]
      exact ⟨[], rfl⟩
    | ok links => exact ⟨_, hlinks Input s title data hd hv hp links hl⟩
  · intro input p hnv herr
    have hd : (0 : Int) < (if input.Depth < 1 then 3 else input.Depth) := by
      split <;> omega
    rcases Runner_records L R input p with h | ⟨_, h, _⟩
    · -- no records: the run failed, or the crawl of the seed recorded nothing
      exfalso
      have hcases : (∃ err, (Runner L R input p).1.2 = some err) ∨
          (CrawlPage L R
            { PageURL := input.StartUrl,
              Depth := if input.Depth < 1 then 3 else input.Depth,
              PathPatterns := input.PathPatterns }
            { visitedURLs := p.visitedURLs, allData := [], trace := p.trace }).1 = none ∧
          (CrawlPage L R
            { PageURL := input.StartUrl,
              Depth := if input.Depth < 1 then 3 else input.Depth,
              PathPatterns := input.PathPatterns }
            { visitedURLs := p.visitedURLs, allData := [], trace := p.trace }).2.allData =
              (Runner L R input p).1.1 := by
        unfold Runner
        simp only
        cases validateInputs L input with
        | some err => exact Or.inl ⟨err, rfl⟩
        | none =>
          simp only
          generalize CrawlPage L R _ _ = res
          obtain ⟨e, s⟩ := res
          cases e with
          | some err => exact Or.inl ⟨_, rfl⟩
          | none => exact Or.inr ⟨rfl, rfl⟩
      rcases hcases with ⟨err, he⟩ | ⟨hnone, hdata⟩
      · rw [he] at herr
        cases herr
      · rw [h] at hdata
        cases hp : R.page p.trace input.StartUrl with
        | error err =>
          rw [CrawlPage_page_error L R _ _ err hd hnv hp] at hnone
          cases hnone
        | ok td =>
          obtain ⟨title, data⟩ := td
          cases hl : R.links
              (p.trace ++ [Event.navigate input.StartUrl (.ok (title, data))]) with
          | error err =>
            rw [CrawlPage_links_error L R _ _ title data err hd hnv hp hl] at hnone
            cases hnone
          | ok links =>
            rw [hlinks _ _ title data hd hnv hp links hl] at hdata
            cases hdata
    · cases hp : R.page p.trace input.StartUrl with
      | error err =>
        exfalso
        have hc := CrawlPage_page_error L R
          { PageURL := input.StartUrl,
            Depth := if input.Depth < 1 then 3 else input.Depth,
            PathPatterns := input.PathPatterns }
          { visitedURLs := p.visitedURLs, allData := [], trace := p.trace } err hd hnv hp
        have hr : (Runner L R input p).1.2 ≠ none := by
          unfold Runner
          simp only
          cases validateInputs L input with
          | some e => simp
          | none => simp [hc]
        exact hr herr
      | ok td =>
        obtain ⟨title, data⟩ := td
        cases hl : R.links
            (p.trace ++ [Event.navigate input.StartUrl (.ok (title, data))]) with
        | error err =>
          exfalso
          have hc := CrawlPage_links_error L R
            { PageURL := input.StartUrl,
              Depth := if input.Depth < 1 then 3 else input.Depth,
              PathPatterns := input.PathPatterns }
            { visitedURLs := p.visitedURLs, allData := [], trace := p.trace }
            title data err hd hnv hp hl
          have hr : (Runner L R input p).1.2 ≠ none := by
            unfold Runner
            simp only
            cases validateInputs L input with
            | some e => simp
            | none => simp [hc]
          exact hr herr
        | ok links =>
          refine ⟨title, data, links, rfl, hl, ?_⟩
          rw [h, hlinks _ _ title data hd hnv hp links hl]
          rfl
  · intro input p r hr
    rcases Runner_records L R input p with h | ⟨_, h, _⟩
    · rw [h] at hr
      cases hr
    · rw [h] at hr
      rcases CrawlPage_records_shape L R
        { PageURL := input.StartUrl,
          Depth := if input.Depth < 1 then 3 else input.Depth,
          PathPatterns := input.PathPatterns }
        { visitedURLs := p.visitedURLs, allData := [], trace := p.trace } with h2 | h2
      · rw [h2] at hr
        cases hr
      · obtain ⟨title, data, rest, h2⟩ := h2
        rw [h2] at hr
        simp only [List.nil_append, List.head?_cons, Option.some.injEq] at hr
        rw [← hr]

/-- Witness of `output_append_only`: in the example crawl the seed is newly claimed and
renders, and its record is the first record of the output; the example run starts with
the seed not visited and returns no error, and its result starts with the record of the
seed. -/
theorem output_append_only_witness :
    (∃ rest, (CrawlPage exLib exSite exSeed emptyState).2.allData =
      emptyState.allData ++
        ({ URL := "https://site.com", Content := "text", Title := "title" } :
          RunnerOutput) :: rest) ∧
    (∃ title data links,
      exSite.page freshProcess.trace exRequest.StartUrl = .ok (title, data) ∧
      exSite.links (freshProcess.trace ++
        [Event.navigate exRequest.StartUrl (.ok (title, data))]) = .ok links ∧
      (Runner exLib exSite exRequest freshProcess).1.1 =
        ({ URL := exRequest.StartUrl, Content := data, Title := title } : RunnerOutput) ::
          linkRecords exLib exSite
            { PageURL := exRequest.StartUrl,
              Depth := if exRequest.Depth < 1 then 3 else exRequest.Depth,
              PathPatterns := exRequest.PathPatterns }
            (rendered
              { visitedURLs := freshProcess.visitedURLs, allData := [],
                trace := freshProcess.trace }
              exRequest.StartUrl title data (.ok links)) links) ∧
    ({ URL := "https://site.com", Content := "text", Title := "title" } :
      RunnerOutput).URL = exRequest.StartUrl :=
  ⟨((output_append_only exLib exSite).2.1 exSeed emptyState "title" "text" (by decide)
      (by simp [emptyState]) (by simp [exSite, siteRenderer, exSeed])).1,
    (output_append_only exLib exSite).2.2.1 exRequest freshProcess
      (by simp [freshProcess]) (by rw [exSite_run]),
    (output_append_only exLib exSite).2.2.2 exRequest freshProcess
      { URL := "https://site.com", Content := "text", Title := "title" }
      (by rw [exSite_run]; rfl)⟩

theorem Crawled.nil_patterns {L : StdLib} {tr : List Event} {page : String} {d : Int}
    {u : String} (hc : Crawled L tr page [] d u) : u = page :=
  match hc with
  | .self _ _ _ _ => rfl
  | .child _ _ _ _ _ l _ _ _ _ hi _ _ => by
    rw [IsInternalLink_nil] at hi
    cases hi

theorem Crawled.one_hop {L : StdLib} {tr : List Event} {page : String}
    {pats : List String} {d : Int} {u : String} (hc : Crawled L tr page pats d u) :
    u = page ∨ Edge tr page u :=
  match hc with
  | .self _ _ _ _ => Or.inl rfl
  | .child _ _ _ r ls l _ _ hin hl _ _ hrest => by
    have := hrest.nil_patterns
    subst this
    exact Or.inr ⟨r, ls, hin, hl⟩

theorem followLink_nil (L : StdLib) (R : Renderer) (page : String) (d : Int) (st : State)
    (link : String) :
    followLink L R { PageURL := page, Depth := d, PathPatterns := [] } st link = st := by
  simp [followLink, IsInternalLink_nil]

/-- C20 (one hop only): whatever depth is requested, a crawl goes at most one link away
from the seed.  In a recursive call of `CrawlPage`, whose pattern list is empty, the loop
leaves the state as it is at every link.  Hence every record that `Runner` returns, and
every URL that a run of `Runner` adds to the visited set, is the seed or a link that the
renderer returned for the seed page in that run; and when the pattern list of the request
is empty, `Runner` returns at most one record, and it is the record of the seed. -/
theorem one_hop_only (L : StdLib) (R : Renderer) (input : RunnerInput) (p : Process) :
    (∀ (page : String) (d : Int) (st : State) (link : String),
      followLink L R { PageURL := page, Depth := d, PathPatterns := [] } st link = st) ∧
    (∀ r ∈ (Runner L R input p).1.1, r.URL = input.StartUrl ∨
      Edge ((Runner L R input p).2.trace.drop p.trace.length) input.StartUrl r.URL) ∧
    (∀ u ∈ (Runner L R input p).2.visitedURLs, u ∈ p.visitedURLs ∨ u = input.StartUrl ∨
      Edge ((Runner L R input p).2.trace.drop p.trace.length) input.StartUrl u) ∧
    (input.PathPatterns = [] →
      (Runner L R input p).1.1.length ≤ 1 ∧
      ∀ r ∈ (Runner L R input p).1.1, r.URL = input.StartUrl) := by
  have hnew := CrawlPage_new L R
    { PageURL := input.StartUrl, Depth := if input.Depth < 1 then 3 else input.Depth,
      PathPatterns := input.PathPatterns }
    { visitedURLs := p.visitedURLs, allData := [], trace := p.trace }
  rw [newRecords_of_nil] at hnew
  simp only [newEvents] at hnew
  obtain ⟨hnd, hrec, _, hvis, _⟩ := hnew
  refine ⟨followLink_nil L R, ?_, ?_, ?_⟩
  · intro r hr
    rcases Runner_records L R input p with h | ⟨_, h1, _, h3⟩
    · rw [h] at hr
      exact absurd hr (List.not_mem_nil _)
    · rw [h1] at hr
      rw [h3]
      exact (hrec r hr).2.one_hop
  · intro u hu
    have hcases : (Runner L R input p).2 = p ∨
        ((Runner L R input p).2.visitedURLs =
          (CrawlPage L R
            { PageURL := input.StartUrl,
              Depth := if input.Depth < 1 then 3 else input.Depth,
              PathPatterns := input.PathPatterns }
            { visitedURLs := p.visitedURLs, allData := [], trace := p.trace }).2.visitedURLs ∧
        (Runner L R input p).2.trace =
          (CrawlPage L R
            { PageURL := input.StartUrl,
              Depth := if input.Depth < 1 then 3 else input.Depth,
              PathPatterns := input.PathPatterns }
            { visitedURLs := p.visitedURLs, allData := [], trace := p.trace }).2.trace) := by
      unfold Runner
      simp only
      cases validateInputs L input with
      | some err => exact Or.inl rfl
      | none =>
        simp only
        generalize CrawlPage L R _ _ = res
        obtain ⟨e, s⟩ := res
        cases e with
        | some err => exact Or.inr ⟨rfl, rfl⟩
        | none => exact Or.inr ⟨rfl, rfl⟩
    rcases hcases with h | ⟨h1, h2⟩
    · rw [h] at hu
      exact Or.inl hu
    · rw [h1] at hu
      rw [h2]
      rcases hvis u hu with h | h
      · exact Or.inl h
      · exact Or.inr h.one_hop
  · intro hpats
    have hall : ∀ r ∈ (Runner L R input p).1.1, r.URL = input.StartUrl := by
      intro r hr
      rcases Runner_records L R input p with h | ⟨_, h1, _, _⟩
      · rw [h] at hr
        exact absurd hr (List.not_mem_nil _)
      · rw [h1] at hr
        have hc := (hrec r hr).2
        simp only [hpats] at hc
        exact hc.nil_patterns
    refine ⟨?_, hall⟩
    rcases Runner_records L R input p with h | ⟨_, h1, _, _⟩
    · rw [h]; simp
    · have hnd2 : ((Runner L R input p).1.1.map (fun r => r.URL)).Nodup := by
        rw [h1]; exact hnd
      cases hlist : (Runner L R input p).1.1 with
      | nil => simp
      | cons a rest =>
        cases rest with
        | nil => simp
        | cons b rest2 =>
          rw [hlist] at hnd2 hall
          have ha := hall a (by simp)
          have hb := hall b (by simp)
          simp only [List.map_cons, List.nodup_cons, List.mem_cons, not_or] at hnd2
          exact absurd (ha.trans hb.symm) hnd2.1.1

/-- The example run with an empty pattern list, evaluated: only the seed is recorded. -/
theorem exSite_run_no_patterns :
    (Runner exLib exSite
      { StartUrl := "https://site.com", PathPatterns := [], Depth := 3 } freshProcess).1 =
      ([{ URL := "https://site.com", Content := "text", Title := "title" }], none) := by
  have hv : validateInputs exLib
      { StartUrl := "https://site.com", PathPatterns := [], Depth := 3 } = none := by decide
  simp +decide [Runner, hv, freshProcess, CrawlPage, ParsePage, exSite, siteRenderer]

/-- Witness of `one_hop_only`: in the example run with depth 3 the record of the first
blog post is the record of a link of the seed page, and the run with an empty pattern
list returns at most one record. -/
theorem one_hop_only_witness :
    ("https://site.com/blog/a" = "https://site.com" ∨
      Edge ((Runner exLib exSite exRequest freshProcess).2.trace.drop
        freshProcess.trace.length) "https://site.com" "https://site.com/blog/a") ∧
    (Runner exLib exSite
      { StartUrl := "https://site.com", PathPatterns := [], Depth := 3 }
      freshProcess).1.1.length ≤ 1 :=
  ⟨(one_hop_only exLib exSite exRequest freshProcess).2.1
      { URL := "https://site.com/blog/a", Content := "text", Title := "title" }
      (by rw [exSite_run]; simp [exFinal]),
    ((one_hop_only exLib exSite
      { StartUrl := "https://site.com", PathPatterns := [], Depth := 3 }
      freshProcess).2.2.2 rfl).1⟩

end Krawl
